import Mathlib

/-!
# PickYouChat: the room / unread-counter state machine of `src/app.js`

A shallow embedding of the chat server's shared state (`activeRooms`,
`unreadMessages`), of its three socket handlers (`joinRoom`, `SEND`,
`leaveRoom`), of its two query routes (`/api/rooms/:user`, `/api/unread/:user`)
and of `saveChatHistory` / `loadChatHistory`, followed by theorems about them.

Modelling conventions.

* A JavaScript string is the list of its UTF-16 code units (`JsString`);
  `<` on strings is the code-unit lexicographic order that
  `Array.prototype.sort` uses by default.
* A number is a non-negative integer held as an IEEE double: `roundDouble`
  rounds an exact sum to the nearest double, ties to even, and overflows to
  `Infinity`; `numberToString` prints a number as `Number.prototype.toString`
  does. So `2^53 + 1` is `2^53`.
* A JavaScript object used as a dictionary is the list of its own properties
  (`Obj`). The room maps `activeRooms` and `unreadMessages` are only ever
  indexed by room ids, which contain `-` and so name no member of
  `Object.prototype`: `getOwn` and `setOwn` read and write own properties.
  The per-room counter objects are indexed by user identifiers, which may
  name such a member: `getVal` reads through the prototype chain (an absent
  `toString` is the inherited function, an absent `__proto__` is
  `Object.prototype`) and `putVal` writes as plain assignment does (a write of
  a primitive under an absent `__proto__` stores nothing). The order of the
  entries of a counter object is not observable.
* A counter slot holds what the server's own code and a JSON round trip can put
  there: a number, `NaN`, `Infinity`, `null` or a string (the result of `+ 1` on
  an inherited function).
* A history is a list of any length: the language's bound of `2^32 - 1`
  elements on an array, which memory does not let a room reach, is not
  modelled.
* `app.js` has no `try`/`catch` and installs no `uncaughtException` handler: a
  handler that throws (a `TypeError` on a property access of `undefined`) ends
  the Node process. A handler returns `Except.error` then, and `run` stops
  there. `joinRoomEffect` and `SENDEffect` give the state in memory at that
  point.
* The snapshot file is the JSON value that its text denotes (`Json`).
-/

namespace PickYouChat

/-! ## Strings -/

/-- A JavaScript string: its UTF-16 code units. -/
abbrev JsString := List Nat

/-- UTF-16 code units of one character. -/
def utf16Char (c : Char) : List Nat :=
  if c.toNat < 65536 then [c.toNat]
  else [55296 + (c.toNat - 65536) / 1024, 56320 + (c.toNat - 65536) % 1024]

/-- The JavaScript string written by a literal. -/
def js (s : String) : JsString := s.toList.flatMap utf16Char

/-- The code unit of `'-'`. -/
def dash : Nat := 45

/-- JavaScript `x < y` on strings: lexicographic on code units, a proper prefix is smaller. -/
def strLt : JsString → JsString → Bool
  | [], [] => false
  | [], _ :: _ => true
  | _ :: _, [] => false
  | a :: as, b :: bs => if a < b then true else if b < a then false else strLt as bs

/-- One insertion step of a stable sort under `strLt`. -/
def insertSorted (x : JsString) : List JsString → List JsString
  | [] => [x]
  | y :: ys => if strLt x y then x :: y :: ys else y :: insertSorted x ys

/-- The method `Array.prototype.sort()` with the default comparator, on an array of strings. -/
def sort (xs : List JsString) : List JsString :=
  xs.foldl (fun acc x => insertSorted x acc) []

/-- The method `Array.prototype.join(sep)` on an array of strings. -/
def join (sep : JsString) : List JsString → JsString
  | [] => []
  | [x] => x
  | x :: y :: rest => x ++ sep ++ join sep (y :: rest)

/-- The method `String.prototype.split(sep)` for a one-code-unit separator. -/
def split (sep : Nat) : JsString → List JsString
  | [] => [[]]
  | c :: cs =>
    if c = sep then [] :: split sep cs
    else
      match split sep cs with
      | [] => [[c]]
      | p :: ps => (c :: p) :: ps

/-- The method `String.prototype.includes(sub)`: `sub` occurs in `s` as a contiguous run. -/
def includes : JsString → JsString → Bool
  | [], sub => sub.isPrefixOf []
  | c :: cs, sub => sub.isPrefixOf (c :: cs) || includes cs sub

/-- Room id of `joinRoom`, line 82: `[sender, receiver].sort().join('-')`. -/
def resolve (sender receiver : JsString) : JsString :=
  join [dash] (sort [sender, receiver])

/-! ## Numbers -/

/-- How many low bits of `q` do not fit in the 53 bits of a double's significand. -/
def dropBits : Nat → Nat → Nat
  | 0, _ => 0
  | fuel + 1, q => if q < 2 ^ 53 then 0 else dropBits fuel (q / 2) + 1

/-- The double nearest to the natural number `n`, ties to the even significand; `none` is
`Infinity`, for results from `2^1024 = 16^256` on. -/
def roundDouble (n : Nat) : Option Nat :=
  let s := dropBits n n
  let q := n / 2 ^ s
  let r := n % 2 ^ s
  let half := 2 ^ s / 2
  let q' := if half < r ∨ (r = half ∧ 0 < s ∧ q % 2 = 1) then q + 1 else q
  if q' * 2 ^ s < 16 ^ 256 then some (q' * 2 ^ s) else none

/-- Decimal digits, most significant first, in front of `acc`. -/
def digitsAux : Nat → Nat → List Nat → List Nat
  | 0, _, acc => acc
  | fuel + 1, n, acc =>
    if n < 10 then (48 + n) :: acc else digitsAux fuel (n / 10) ((48 + n % 10) :: acc)

/-- The decimal digits of `n` as a string. -/
def digits (n : Nat) : JsString := digitsAux (n + 1) n []

/-- Search, from `k` significant digits upwards, for the decimal number nearest to `n` with
the fewest significant digits that denotes the same double as `n`. -/
def shortestAux (n e : Nat) : Nat → Nat → Nat
  | 0, _ => n
  | fuel + 1, k =>
    let p := 10 ^ (e - k)
    let lo := n / p * p
    let hi := lo + p
    let okLo := roundDouble lo = roundDouble n
    let okHi := roundDouble hi = roundDouble n
    if okLo ∧ okHi then
      (if n - lo < hi - n then lo
       else if hi - n < n - lo then hi
       else if (lo / p) % 2 = 0 then lo else hi)
    else if okLo then lo
    else if okHi then hi
    else shortestAux n e fuel (k + 1)

/-- The decimal number that `Number.prototype.toString` prints for the double `n`: at most 17
significant digits. -/
def shortest (n : Nat) : Nat := shortestAux n (digits n).length 17 1

/-- A digit string without its trailing zeros. -/
def stripZeros (ds : List Nat) : List Nat := (ds.reverse.dropWhile (fun d => d == 48)).reverse

/-- The string `String(n)` of a non-negative integer double: plain digits up to 21 of them,
else `d.ddde+x`. -/
def numberToString (n : Nat) : JsString :=
  let ds := digits (shortest n)
  if ds.length ≤ 21 then ds
  else
    match stripZeros ds with
    | [] => ds
    | d :: rest =>
      (if rest = [] then [d] else d :: 46 :: rest) ++ [101, 43] ++ digits (ds.length - 1)

/-! ## Values and objects -/

/-- The JavaScript values a counter slot can hold or a counter read can give. -/
inductive Val where
  | undefined
  | null
  | nan
  | infinity
  | num (n : Nat)
  | str (s : JsString)
  /-- A built-in function inherited from `Object.prototype`, by its name. -/
  | fn (name : JsString)
  /-- The object `Object.prototype` itself. -/
  | objectPrototype
  deriving DecidableEq, Repr

/-- JavaScript truthiness (`ToBoolean`). -/
def Val.truthy : Val → Bool
  | .num (_ + 1) => true
  | .infinity => true
  | .str (_ :: _) => true
  | .fn _ => true
  | .objectPrototype => true
  | _ => false

/-- JavaScript `ToPrimitive`: a built-in function gives its source text as V8 prints it,
`Object.prototype` gives `[object Object]`. -/
def Val.toPrimitive : Val → Val
  | .fn name => .str (js "function " ++ name ++ js "() { [native code] }")
  | .objectPrototype => .str (js "[object Object]")
  | v => v

/-- JavaScript `ToString`. -/
def Val.toStr : Val → JsString
  | .undefined => js "undefined"
  | .null => js "null"
  | .nan => js "NaN"
  | .infinity => js "Infinity"
  | .num n => numberToString n
  | .str s => s
  | .fn name => js "function " ++ name ++ js "() { [native code] }"
  | .objectPrototype => js "[object Object]"

/-- JavaScript `ToNumber` on `undefined`, `null` and numbers, as a number value. -/
def Val.toNumber : Val → Val
  | .null => .num 0
  | .infinity => .infinity
  | .num n => .num n
  | _ => .nan

/-- Addition of two number values. -/
def Val.addNumbers : Val → Val → Val
  | .nan, _ => .nan
  | _, .nan => .nan
  | .infinity, _ => .infinity
  | _, .infinity => .infinity
  | .num a, .num b =>
    match roundDouble (a + b) with
    | some d => .num d
    | none => .infinity
  | _, _ => .nan

/-- JavaScript `x + y`: concatenation when either operand is a string after `ToPrimitive`,
else addition of doubles. -/
def Val.add (x y : Val) : Val :=
  match x.toPrimitive, y.toPrimitive with
  | .str a, r => .str (a ++ r.toStr)
  | l, .str b => .str (l.toStr ++ b)
  | l, r => Val.addNumbers l.toNumber r.toNumber

/-- An object used as a dictionary: its own properties. -/
abbrev Obj (α : Type) := List (JsString × α)

/-- Own property lookup `o[k]`; `none` when `o` has no own property `k`. -/
def getOwn {α : Type} : Obj α → JsString → Option α
  | [], _ => none
  | (k', v) :: rest, k => if k' = k then some v else getOwn rest k

/-- Assignment `o[k] = v` that overwrites or creates the own property `k`. -/
def setOwn {α : Type} : Obj α → JsString → α → Obj α
  | [], k, v => [(k, v)]
  | (k', v') :: rest, k, v => if k' = k then (k, v) :: rest else (k', v') :: setOwn rest k v

/-- The array `Object.keys(o)`. -/
def objectKeys {α : Type} (o : Obj α) : List JsString := o.map Prod.fst

/-- The methods of `Object.prototype` in Node, the accessor `__proto__` and `constructor`
apart. -/
def prototypeMethods : List JsString :=
  [js "__defineGetter__", js "__defineSetter__", js "hasOwnProperty", js "__lookupGetter__",
   js "__lookupSetter__", js "isPrototypeOf", js "propertyIsEnumerable", js "toString",
   js "valueOf", js "toLocaleString"]

/-- What a plain object inherits under the key `k` from `Object.prototype`. -/
def inherited (k : JsString) : Val :=
  if k = js "__proto__" then .objectPrototype
  else if k = js "constructor" then .fn (js "Object")
  else if k ∈ prototypeMethods then .fn k
  else .undefined

/-- Read of a counter `m[k]`: the own property, else what `Object.prototype` gives. -/
def getVal (m : Obj Val) (k : JsString) : Val :=
  match getOwn m k with
  | some v => v
  | none => inherited k

/-- Assignment `m[k] = v` of a primitive value to a counter object: an own property is
overwritten; else the key `__proto__` reaches the inherited setter, which ignores a
primitive; any other key becomes a new own property. -/
def putVal (m : Obj Val) (k : JsString) (v : Val) : Obj Val :=
  match getOwn m k with
  | some _ => setOwn m k v
  | none => if k = js "__proto__" then m else setOwn m k v

/-- Property key of an optional string: `undefined` names the key `"undefined"`. -/
def propKey : Option JsString → JsString
  | some s => s
  | none => js "undefined"

/-! ## State -/

/-- A chat message: `sender` is read by the server, the rest passes through. -/
structure Message where
  sender : JsString
  payload : JsString
  deriving DecidableEq, Repr

/-- A room object: `{}` or `{history: [...]}`. -/
structure Room where
  history : Option (List Message)
  deriving DecidableEq, Repr

/-- The array `Object.keys(room)`. -/
def Room.keys (r : Room) : List JsString :=
  match r.history with
  | none => []
  | some _ => [js "history"]

/-- The two module-level variables of `app.js`. -/
structure State where
  activeRooms : Obj Room
  unreadMessages : Obj (Obj Val)
  deriving DecidableEq, Repr

/-- The state at lines 16-17, before anything is loaded. -/
def State.empty : State := { activeRooms := [], unreadMessages := [] }

/-- A thrown exception. -/
inductive JsError where
  | typeError
  deriving DecidableEq, Repr

/-- Stored `unreadMessages[roomId][user]`, `none` when the room map or the key is absent. -/
def counter (S : State) (roomId user : JsString) : Option Val :=
  match getOwn S.unreadMessages roomId with
  | none => none
  | some m => getOwn m user

/-- The history the join handler replays (lines 93-97): empty when `history` is not set. -/
def historyOf (S : State) (roomId : JsString) : List Message :=
  match getOwn S.activeRooms roomId with
  | some { history := some h } => h
  | _ => []

/-! ## Socket handlers -/

/-- What the `joinRoom` handler leaves behind. -/
structure JoinResult where
  /-- The shared state after the handler. -/
  state : State
  /-- The value stored in `socket.roomId` (line 84). -/
  roomId : JsString
  /-- The `SEND` events emitted to the joining socket, in order (lines 93-97). -/
  emitted : List Message
  deriving DecidableEq, Repr

/-- Handler of `joinRoom` (lines 81-98). -/
def joinRoom (S : State) (sender receiver : JsString) : Except JsError JoinResult :=
  let roomId := resolve sender receiver
  let S1 : State :=
    match getOwn S.activeRooms roomId with
    | none =>
      { activeRooms := setOwn S.activeRooms roomId { history := none },
        unreadMessages := setOwn S.unreadMessages roomId [] }
    | some _ => S
  match getOwn S1.unreadMessages roomId with
  | none => .error .typeError
  | some m =>
    let S2 : State :=
      { S1 with unreadMessages := setOwn S1.unreadMessages roomId (putVal m sender (.num 0)) }
    .ok { state := S2, roomId := roomId, emitted := historyOf S2 roomId }

/-- Handler of `SEND` (lines 101-119); `socketRoomId` is `socket.roomId`, which is either
`undefined` or a room id stored by line 84. -/
def SEND (S : State) (socketRoomId : Option JsString) (msg : Message) : Except JsError State :=
  match socketRoomId with
  | none => .error .typeError
  | some roomId =>
    let sender := msg.sender
    let receiver := (split dash roomId).find? (fun user => user != sender)
    match getOwn S.unreadMessages roomId with
    | none => .error .typeError
    | some m =>
      let incremented := (getVal m (propKey receiver)).add (.num 1)
      let S1 : State :=
        { S with unreadMessages := setOwn S.unreadMessages roomId (putVal m (propKey receiver) incremented) }
      match getOwn S1.activeRooms roomId with
      | none => .error .typeError
      | some room =>
        let history := match room.history with
          | none => []
          | some h => h
        .ok { S1 with activeRooms := setOwn S1.activeRooms roomId { history := some (history ++ [msg]) } }

/-- What the `leaveRoom` handler leaves behind. -/
structure LeaveResult where
  /-- The shared state after the handler. -/
  state : State
  /-- The snapshot handed to `saveChatHistory` (line 128), if it was called. -/
  saved : Option State
  deriving DecidableEq, Repr

/-- Handler of `leaveRoom` (lines 122-134); `socketRoomId` is `socket.roomId`. -/
def leaveRoom (S : State) (socketRoomId : Option JsString) : Except JsError LeaveResult :=
  match socketRoomId with
  | none => .ok { state := S, saved := none }
  | some roomId =>
    if roomId = [] then .ok { state := S, saved := none }
    else
      match getOwn S.activeRooms roomId with
      | none => .error .typeError
      | some room =>
        let sender := room.keys.find? (fun user => user != js "history")
        match getOwn S.unreadMessages roomId with
        | none => .error .typeError
        | some m =>
          let S1 : State :=
            { S with unreadMessages := setOwn S.unreadMessages roomId (putVal m (propKey sender) (.num 0)) }
          .ok { state := S1, saved := some S }

/-! ## Query routes -/

/-- Both routes, lines 56 and 67: the keys of `activeRooms` that include `user`. -/
def userRooms (S : State) (user : JsString) : List JsString :=
  (objectKeys S.activeRooms).filter (fun roomId => includes roomId user)

/-- The `map` of lines 57-60 over the selected rooms. -/
def roomsWithUnreadCounts (S : State) (user : JsString) :
    List JsString → Except JsError (List (JsString × Val))
  | [] => .ok []
  | roomId :: rest =>
    match getOwn S.unreadMessages roomId with
    | none => .error .typeError
    | some m =>
      match roomsWithUnreadCounts S user rest with
      | .error e => .error e
      | .ok entries => .ok ((roomId, getVal m user) :: entries)

/-- Route `/api/rooms/:user` (lines 54-62): the `rooms` array handed to `res.json`. -/
def listRooms (S : State) (user : JsString) : Except JsError (List (JsString × Val)) :=
  roomsWithUnreadCounts S user (userRooms S user)

/-- One turn of the `forEach` of lines 69-73. -/
def addUnread (S : State) (user : JsString) (totalUnread : Val) (roomId : JsString) : Val :=
  match getOwn S.unreadMessages roomId with
  | none => totalUnread
  | some m => if (getVal m user).truthy then totalUnread.add (getVal m user) else totalUnread

/-- Route `/api/unread/:user` (lines 65-75): the `unreadCount` handed to `res.json`. -/
def unreadTotal (S : State) (user : JsString) : Val :=
  (userRooms S user).foldl (addUnread S user) (.num 0)

/-! ## Connections and runs -/

/-- The server: shared state, the `roomId` bound to each socket, the last saved snapshot. -/
structure World where
  state : State
  sockets : List (Nat × JsString)
  disk : Option State
  deriving DecidableEq, Repr

/-- A freshly started server with nothing to load. -/
def World.empty : World := { state := State.empty, sockets := [], disk := none }

/-- An inbound socket event on connection `c`. -/
inductive Event where
  | joinRoom (c : Nat) (sender receiver : JsString)
  | SEND (c : Nat) (msg : Message)
  | leaveRoom (c : Nat)
  deriving DecidableEq, Repr

/-- The server handles one event; an error is the uncaught exception that ends the process. -/
def step (w : World) : Event → Except JsError World
  | .joinRoom c sender receiver =>
    match joinRoom w.state sender receiver with
    | .error e => .error e
    | .ok r => .ok { w with state := r.state, sockets := (c, r.roomId) :: w.sockets }
  | .SEND c msg =>
    match SEND w.state (w.sockets.lookup c) msg with
    | .error e => .error e
    | .ok S => .ok { w with state := S }
  | .leaveRoom c =>
    match leaveRoom w.state (w.sockets.lookup c) with
    | .error e => .error e
    | .ok r => .ok { w with state := r.state, disk := r.saved.orElse (fun _ => w.disk) }

/-- The server handles a sequence of events, stopping at the first exception. -/
def run (w : World) : List Event → Except JsError World
  | [] => .ok w
  | e :: es =>
    match step w e with
    | .error err => .error err
    | .ok w' => run w' es

/-- A world the server reaches from a fresh start by handling events. -/
def Reachable (w : World) : Prop := ∃ es : List Event, run World.empty es = .ok w

/-- Consecutive `SEND` events on one socket. -/
def sendAll (S : State) (socketRoomId : Option JsString) : List Message → Except JsError State
  | [] => .ok S
  | msg :: rest =>
    match SEND S socketRoomId msg with
    | .error e => .error e
    | .ok S' => sendAll S' socketRoomId rest

/-- The receiver key of lines 104 and 108 for a message sent on a socket bound to `roomId`. -/
def receiverKey (roomId : JsString) (msg : Message) : JsString :=
  propKey ((split dash roomId).find? (fun user => user != msg.sender))

/-- The counter of `u` in its room with `peer` after `u` joins and then the messages `ms` are
sent one by one on the socket that `peer` joined (bound to `resolve peer u`). -/
def counterAfterSends (S0 : State) (u peer : JsString) (ms : List Message) :
    Except JsError (Option Val) :=
  match joinRoom S0 u peer with
  | .error e => .error e
  | .ok J =>
    match sendAll J.state (some (resolve peer u)) ms with
    | .error e => .error e
    | .ok S' => .ok (counter S' (resolve u peer) u)

/-- The messages of the `SEND` events of a run that arrive on sockets bound to `roomId`, in
order; `sockets` is the binding of sockets to rooms as the run starts, and each `joinRoom`
event rebinds its socket (line 84). -/
def sentTo (roomId : JsString) : List (Nat × JsString) → List Event → List Message
  | _, [] => []
  | sockets, .joinRoom c sender receiver :: es =>
    sentTo roomId ((c, resolve sender receiver) :: sockets) es
  | sockets, .SEND c msg :: es =>
    if sockets.lookup c = some roomId then msg :: sentTo roomId sockets es
    else sentTo roomId sockets es
  | sockets, .leaveRoom _ :: es => sentTo roomId sockets es

/-- Every `SEND` event of the run arrives on a socket that has joined a room before. -/
def sendsJoined : List (Nat × JsString) → List Event → Bool
  | _, [] => true
  | sockets, .joinRoom c sender receiver :: es =>
    sendsJoined ((c, resolve sender receiver) :: sockets) es
  | sockets, .SEND c _ :: es => (sockets.lookup c).isSome && sendsJoined sockets es
  | sockets, .leaveRoom _ :: es => sendsJoined sockets es

/-! ## The query contracts in the words of the specification -/

/-- Every way to cut a string at one `-`: the pairs `(l, r)` with `s = l ++ "-" ++ r`. -/
def cuts : JsString → List (JsString × JsString)
  | [] => []
  | c :: cs =>
    (if c = dash then [([], cs)] else []) ++ (cuts cs).map (fun lr => (c :: lr.1, lr.2))

/-- The room id contains `u` as one of its two components: it is the room id of some
pair `(l, r)` one of which is `u`. -/
def hasParticipant (roomId u : JsString) : Bool :=
  (cuts roomId).any (fun lr => (lr.1 == u || lr.2 == u) && resolve lr.1 lr.2 == roomId)

/-- The specification's `countFor` as claimed: the stored counter, `0` when absent. -/
def countFor (S : State) (roomId u : JsString) : Val :=
  (counter S roomId u).getD (.num 0)

/-- The claimed unread total: the sum of `countFor` over the rooms that have `u` as one of
their two components. -/
def claimedUnreadTotal (S : State) (u : JsString) : Val :=
  ((objectKeys S.activeRooms).filter (fun roomId => hasParticipant roomId u)).foldl
    (fun total roomId => total.add (countFor S roomId u)) (.num 0)

/-! ## Invariants and scenarios -/

/-- Every room of `activeRooms` has an entry in `unreadMessages`. -/
def Tracked (S : State) : Prop :=
  ∀ roomId, roomId ∈ objectKeys S.activeRooms → roomId ∈ objectKeys S.unreadMessages

/-- Every socket that has joined is bound to a room of `activeRooms`. -/
def SocketsTracked (w : World) : Prop :=
  ∀ c roomId, w.sockets.lookup c = some roomId → roomId ∈ objectKeys w.state.activeRooms

/-- The scenario of the specification: amy joins with peer bob on connection 0, bob joins
with peer amy on connection 1, amy sends "hi", bob sends "yo". -/
def scenarioEvents : List Event :=
  [.joinRoom 0 (js "amy") (js "bob"), .joinRoom 1 (js "bob") (js "amy"),
   .SEND 0 { sender := js "amy", payload := js "hi" },
   .SEND 1 { sender := js "bob", payload := js "yo" }]

/-- The shared state at the end of the scenario. -/
def scenarioState : State :=
  { activeRooms :=
      [(js "amy-bob",
        { history := some [{ sender := js "amy", payload := js "hi" },
                           { sender := js "bob", payload := js "yo" }] })],
    unreadMessages := [(js "amy-bob", [(js "amy", .num 1), (js "bob", .num 1)])] }

/-- The world after amy alone has joined with peer bob on connection 0. -/
def amyJoinedWorld : World :=
  { state :=
      { activeRooms := [(js "amy-bob", { history := none })],
        unreadMessages := [(js "amy-bob", [(js "amy", .num 0)])] },
    sockets := [(0, js "amy-bob")],
    disk := none }

/-- The world after amy has joined with peer bob and sent "hi" before bob ever joined. -/
def amySentWorld : World :=
  { state :=
      { activeRooms :=
          [(js "amy-bob", { history := some [{ sender := js "amy", payload := js "hi" }] })],
        unreadMessages := [(js "amy-bob", [(js "amy", .num 0), (js "bob", .nan)])] },
    sockets := [(0, js "amy-bob")],
    disk := none }

/-- The world at the end of the scenario. -/
def scenarioWorld : World :=
  { state := scenarioState, sockets := [(1, js "amy-bob"), (0, js "amy-bob")], disk := none }

/-- A state whose room has a history but no counters, as `loadChatHistory` yields it from a
file without the `unreadMessages` field. -/
def untrackedState : State :=
  { activeRooms :=
      [(js "amy-bob", { history := some [{ sender := js "amy", payload := js "hi" }] })],
    unreadMessages := [] }

/-- A run with two connections of amy and one of bob: amy joins and sends "hi", bob joins,
amy's first connection leaves, bob sends "yo", amy joins again on another connection and
sends "ok". -/
def interleavedEvents : List Event :=
  [.joinRoom 0 (js "amy") (js "bob"),
   .SEND 0 { sender := js "amy", payload := js "hi" },
   .joinRoom 1 (js "bob") (js "amy"),
   .leaveRoom 0,
   .SEND 1 { sender := js "bob", payload := js "yo" },
   .joinRoom 2 (js "amy") (js "bob"),
   .SEND 2 { sender := js "amy", payload := js "ok" }]

/-! ## Exceptions and repeated joins -/

/-- The state the `SEND` handler leaves in memory, together with the exception that ended
it, if any: line 104 throws before any write, line 108 before its own write, line 112 after
the counter was written. -/
def SENDEffect (S : State) (socketRoomId : Option JsString) (msg : Message) :
    State × Option JsError :=
  match socketRoomId with
  | none => (S, some .typeError)
  | some roomId =>
    match getOwn S.unreadMessages roomId with
    | none => (S, some .typeError)
    | some m =>
      let incremented := (getVal m (receiverKey roomId msg)).add (.num 1)
      let S1 : State :=
        { S with unreadMessages := setOwn S.unreadMessages roomId (putVal m (receiverKey roomId msg) incremented) }
      match getOwn S1.activeRooms roomId with
      | none => (S1, some .typeError)
      | some room =>
        let history := match room.history with
          | none => []
          | some h => h
        ({ S1 with activeRooms := setOwn S1.activeRooms roomId { history := some (history ++ [msg]) } },
         none)

/-- The state the `joinRoom` handler leaves in memory, together with the exception that
ended it, if any: line 90 throws when `unreadMessages[roomId]` is `undefined`. -/
def joinRoomEffect (S : State) (sender receiver : JsString) : State × Option JsError :=
  let roomId := resolve sender receiver
  let S1 : State :=
    match getOwn S.activeRooms roomId with
    | none =>
      { activeRooms := setOwn S.activeRooms roomId { history := none },
        unreadMessages := setOwn S.unreadMessages roomId [] }
    | some _ => S
  match getOwn S1.unreadMessages roomId with
  | none => (S1, some .typeError)
  | some m =>
    ({ S1 with unreadMessages := setOwn S1.unreadMessages roomId (putVal m sender (.num 0)) },
     none)

/-- The shared state after a `joinRoom` event. -/
def joinState (S : State) (sender receiver : JsString) : Except JsError State :=
  match joinRoom S sender receiver with
  | .error e => .error e
  | .ok J => .ok J.state

/-- The shared state after the same `joinRoom` event twice in succession. -/
def joinTwice (S : State) (sender receiver : JsString) : Except JsError State :=
  match joinState S sender receiver with
  | .error e => .error e
  | .ok S' => joinState S' sender receiver

/-! ## Persistence -/

/-- A JSON value, as the text of `chatHistory.json` denotes it; numbers are the non-negative
integers of the model. -/
inductive Json where
  | null
  | num (n : Nat)
  | str (s : JsString)
  | arr (items : List Json)
  | obj (members : List (JsString × Json))

/-- How `JSON.stringify` writes a counter value; `none` when the property is left out. -/
def valJson : Val → Option Json
  | .undefined => none
  | .fn _ => none
  | .null => some .null
  | .nan => some .null
  | .infinity => some .null
  | .num n => some (.num n)
  | .str s => some (.str s)
  | .objectPrototype => some (.obj [])

/-- How `JSON.stringify` writes the counters of one room. -/
def countersJson (m : Obj Val) : Json :=
  .obj (m.filterMap (fun kv => (valJson kv.2).map (fun j => (kv.1, j))))

/-- How `JSON.stringify` writes a message. -/
def messageJson (msg : Message) : Json :=
  .obj [(js "sender", .str msg.sender), (js "payload", .str msg.payload)]

/-- How `JSON.stringify` writes a room object. -/
def roomJson (room : Room) : Json :=
  match room.history with
  | none => .obj []
  | some h => .obj [(js "history", .arr (h.map messageJson))]

/-- The function `saveChatHistory` (lines 38-41): the JSON value of the text written,
`JSON.stringify({ activeRooms, unreadMessages })`. -/
def saveChatHistory (S : State) : Json :=
  .obj [(js "activeRooms", .obj (S.activeRooms.map (fun kr => (kr.1, roomJson kr.2)))),
        (js "unreadMessages", .obj (S.unreadMessages.map (fun km => (km.1, countersJson km.2))))]

/-- All the values of a list of options, when none is missing. -/
def allSome {α : Type} : List (Option α) → Option (List α)
  | [] => some []
  | none :: _ => none
  | some x :: rest => (allSome rest).map (fun xs => x :: xs)

/-- A parsed counter value; `none` when it is no value of the model. A number literal is read
as the nearest double. -/
def jsonVal : Json → Option Val
  | .null => some .null
  | .num n =>
    match roundDouble n with
    | some d => some (.num d)
    | none => some .infinity
  | .str s => some (.str s)
  | _ => none

/-- A parsed message: an object with the two string members `sender` and `payload`. -/
def jsonMessage : Json → Option Message
  | .obj members =>
    match getOwn members (js "sender"), getOwn members (js "payload") with
    | some (.str sender), some (.str payload) =>
      if members.length = 2 then some { sender := sender, payload := payload } else none
    | _, _ => none
  | _ => none

/-- A parsed room object: `{}` or `{history: [...]}`. -/
def jsonRoom : Json → Option Room
  | .obj [] => some { history := none }
  | .obj [(k, .arr items)] =>
    if k = js "history" then (allSome (items.map jsonMessage)).map (fun h => { history := some h })
    else none
  | _ => none

/-- The parsed counters of one room. -/
def jsonCounters : Json → Option (Obj Val)
  | .obj members => allSome (members.map (fun kj => (jsonVal kj.2).map (fun v => (kj.1, v))))
  | _ => none

/-- The value of `chatHistory.activeRooms || {}` (line 28) as the room map of the model. -/
def jsonActiveRooms : Option Json → Option (Obj Room)
  | none => some []
  | some .null => some []
  | some (.num 0) => some []
  | some (.str []) => some []
  | some (.obj members) => allSome (members.map (fun kj => (jsonRoom kj.2).map (fun r => (kj.1, r))))
  | some _ => none

/-- The value of `chatHistory.unreadMessages || {}` (line 29) as the counter maps of the
model. -/
def jsonUnreadMessages : Option Json → Option (Obj (Obj Val))
  | none => some []
  | some .null => some []
  | some (.num 0) => some []
  | some (.str []) => some []
  | some (.obj members) =>
    allSome (members.map (fun kj => (jsonCounters kj.2).map (fun m => (kj.1, m))))
  | some _ => none

/-- The function `loadChatHistory` (lines 23-32) run in state `S`; `file` is `none` when the
file does not exist or is empty, else the JSON value of its text. The result is `none` when
the file holds values that are no state of the model. -/
def loadChatHistory (S : State) (file : Option Json) : Option State :=
  match file with
  | none => some S
  | some (.obj members) =>
    match jsonActiveRooms (getOwn members (js "activeRooms")),
          jsonUnreadMessages (getOwn members (js "unreadMessages")) with
    | some activeRooms, some unreadMessages =>
      some { activeRooms := activeRooms, unreadMessages := unreadMessages }
    | _, _ => none
  | some _ => none

/-- The file `{"activeRooms":{"amy-bob":{}}}`: a room and no `unreadMessages` field. -/
def fileWithoutCounters : Json :=
  .obj [(js "activeRooms", .obj [(js "amy-bob", .obj [])])]

/-- The file `{"activeRooms":{"amy-bob":{"history":[{"sender":"amy","payload":"hi"}]}}}`. -/
def fileWithHistory : Json :=
  .obj [(js "activeRooms",
    .obj [(js "amy-bob",
      .obj [(js "history",
        .arr [.obj [(js "sender", .str (js "amy")), (js "payload", .str (js "hi"))]])])])]

/-! ## Lemmas on strings -/

theorem strLt_irrefl (a : JsString) : strLt a a = false := by
  induction a with
  | nil => rfl
  | cons x xs ih => simp [strLt, ih]

theorem strLt_asymm : ∀ a b : JsString, strLt a b = true → strLt b a = false
  | [], [], h => by simp [strLt] at h
  | [], _ :: _, _ => by simp [strLt]
  | _ :: _, [], h => by simp [strLt] at h
  | x :: xs, y :: ys, h => by
    simp only [strLt] at h ⊢
    by_cases hxy : x < y
    · have hyx : ¬ y < x := by omega
      simp [hyx, hxy]
    · by_cases hyx : y < x
      · simp [hxy, hyx] at h
      · simp only [hxy, hyx, if_false] at h ⊢
        exact strLt_asymm xs ys h

theorem eq_of_strLt_false : ∀ a b : JsString, strLt a b = false → strLt b a = false → a = b
  | [], [], _, _ => rfl
  | [], _ :: _, h, _ => by simp [strLt] at h
  | _ :: _, [], _, h => by simp [strLt] at h
  | x :: xs, y :: ys, h1, h2 => by
    simp only [strLt] at h1 h2
    by_cases hxy : x < y
    · simp [hxy] at h1
    · by_cases hyx : y < x
      · simp [hyx] at h2
      · simp only [hxy, hyx, if_false] at h1 h2
        have hx : x = y := by omega
        rw [hx, eq_of_strLt_false xs ys h1 h2]

/-- The room id spelled out: the smaller identifier, `-`, the larger one. -/
theorem resolve_eq (a b : JsString) :
    resolve a b = if strLt b a then b ++ dash :: a else a ++ dash :: b := by
  unfold resolve sort
  simp only [List.foldl, insertSorted]
  split <;> simp [join]

theorem resolve_comm (a b : JsString) : resolve a b = resolve b a := by
  rw [resolve_eq, resolve_eq]
  cases hba : strLt b a <;> cases hab : strLt a b
  · simp [eq_of_strLt_false a b hab hba]
  · simp
  · simp
  · rw [strLt_asymm a b hab] at hba
    cases hba

/-! ## Lemmas on objects -/

theorem getOwn_setOwn_self {α : Type} (o : Obj α) (k : JsString) (v : α) :
    getOwn (setOwn o k v) k = some v := by
  induction o with
  | nil => simp [setOwn, getOwn]
  | cons e rest ih =>
    obtain ⟨k', v'⟩ := e
    by_cases h : k' = k
    · simp [setOwn, getOwn, h]
    · simp [setOwn, getOwn, h, ih]

theorem getOwn_setOwn_ne {α : Type} (o : Obj α) (k k' : JsString) (v : α) (h : k' ≠ k) :
    getOwn (setOwn o k v) k' = getOwn o k' := by
  induction o with
  | nil =>
    have h' : ¬ k = k' := fun e => h e.symm
    simp [setOwn, getOwn, h']
  | cons e rest ih =>
    obtain ⟨k1, v1⟩ := e
    by_cases h1 : k1 = k
    · have h2 : ¬ k1 = k' := fun e => h (e.symm.trans h1)
      have h3 : ¬ k = k' := fun e => h e.symm
      simp [setOwn, getOwn, h1, h3]
    · by_cases h2 : k1 = k'
      · subst h2
        simp [setOwn, getOwn, h1]
      · simp [setOwn, getOwn, h1, h2, ih]

theorem mem_objectKeys_iff {α : Type} (o : Obj α) (k : JsString) :
    k ∈ objectKeys o ↔ ∃ v, getOwn o k = some v := by
  induction o with
  | nil => simp [objectKeys, getOwn]
  | cons e rest ih =>
    obtain ⟨k1, v1⟩ := e
    by_cases h1 : k1 = k
    · simp [objectKeys, getOwn, h1]
    · have h2 : ¬ k = k1 := fun e => h1 e.symm
      have ih' : k ∈ List.map Prod.fst rest ↔ ∃ v, getOwn rest k = some v := ih
      simp only [objectKeys, List.map_cons, List.mem_cons, h2, false_or, getOwn, h1, if_false]
      exact ih'

theorem objectKeys_setOwn_of_mem {α : Type} (o : Obj α) (k : JsString) (v : α)
    (h : k ∈ objectKeys o) : objectKeys (setOwn o k v) = objectKeys o := by
  induction o with
  | nil => simp [objectKeys] at h
  | cons e rest ih =>
    obtain ⟨k1, v1⟩ := e
    by_cases h1 : k1 = k
    · simp [objectKeys, setOwn, h1]
    · have h2 : ¬ k = k1 := fun e => h1 e.symm
      have hrest : k ∈ objectKeys rest := by
        simpa [objectKeys, h2] using h
      have := ih hrest
      simp only [objectKeys] at this
      simp [objectKeys, setOwn, h1, this]

theorem objectKeys_setOwn_of_not_mem {α : Type} (o : Obj α) (k : JsString) (v : α)
    (h : k ∉ objectKeys o) : objectKeys (setOwn o k v) = objectKeys o ++ [k] := by
  induction o with
  | nil => simp [objectKeys, setOwn]
  | cons e rest ih =>
    obtain ⟨k1, v1⟩ := e
    have h1 : ¬ k1 = k := by
      intro e
      apply h
      simp [objectKeys, e]
    have hrest : k ∉ objectKeys rest := by
      intro hm
      apply h
      simp only [objectKeys] at hm
      simp [objectKeys, hm]
    have := ih hrest
    simp only [objectKeys] at this
    simp [objectKeys, setOwn, h1, this]

theorem mem_objectKeys_setOwn {α : Type} (o : Obj α) (k k' : JsString) (v : α) :
    k' ∈ objectKeys (setOwn o k v) ↔ k' ∈ objectKeys o ∨ k' = k := by
  by_cases h : k ∈ objectKeys o
  · rw [objectKeys_setOwn_of_mem o k v h]
    constructor
    · exact Or.inl
    · rintro (h' | h')
      · exact h'
      · rw [h']; exact h
  · rw [objectKeys_setOwn_of_not_mem o k v h]
    simp

theorem setOwn_of_getOwn {α : Type} (o : Obj α) (k : JsString) (v : α)
    (h : getOwn o k = some v) : setOwn o k v = o := by
  induction o with
  | nil => simp [getOwn] at h
  | cons e rest ih =>
    obtain ⟨k1, v1⟩ := e
    by_cases h1 : k1 = k
    · simp only [getOwn, h1, if_true, Option.some.injEq] at h
      simp [setOwn, h1, h]
    · simp only [getOwn, h1, if_false] at h
      simp [setOwn, h1, ih h]

theorem setOwn_setOwn_same {α : Type} (o : Obj α) (k : JsString) (v : α) :
    setOwn (setOwn o k v) k v = setOwn o k v :=
  setOwn_of_getOwn _ k v (getOwn_setOwn_self o k v)

/-! ## Lemmas on counter objects -/

/-- A write under a key other than `__proto__` is read back as an own property. -/
theorem getOwn_putVal_self (m : Obj Val) (k : JsString) (v : Val) (hk : k ≠ js "__proto__") :
    getOwn (putVal m k v) k = some v := by
  unfold putVal
  cases getOwn m k with
  | none => simp [hk, getOwn_setOwn_self]
  | some x => simp [getOwn_setOwn_self]

/-- A write over an own property is read back, whatever the key. -/
theorem getOwn_putVal_of_own (m : Obj Val) (k : JsString) (v x : Val)
    (h : getOwn m k = some x) : getOwn (putVal m k v) k = some v := by
  simp [putVal, h, getOwn_setOwn_self]

/-- A write under the absent key `__proto__` stores nothing. -/
theorem putVal_proto (m : Obj Val) (v : Val) (h : getOwn m (js "__proto__") = none) :
    putVal m (js "__proto__") v = m := by
  simp [putVal, h]

theorem getOwn_putVal_ne (m : Obj Val) (k k' : JsString) (v : Val) (h : k' ≠ k) :
    getOwn (putVal m k v) k' = getOwn m k' := by
  unfold putVal
  cases getOwn m k with
  | none =>
    by_cases hk : k = js "__proto__"
    · simp [hk]
    · simp [hk, getOwn_setOwn_ne _ _ _ _ h]
  | some x => simp [getOwn_setOwn_ne _ _ _ _ h]

theorem putVal_putVal_same (m : Obj Val) (k : JsString) (v : Val) :
    putVal (putVal m k v) k v = putVal m k v := by
  cases hm : getOwn m k with
  | none =>
    by_cases hk : k = js "__proto__"
    · have h1 : putVal m k v = m := by
        subst hk
        simp [putVal, hm]
      rw [h1, h1]
    · have h1 : putVal m k v = setOwn m k v := by simp [putVal, hm, hk]
      rw [h1]
      simp [putVal, getOwn_setOwn_self, setOwn_setOwn_same]
  | some x =>
    have h1 : putVal m k v = setOwn m k v := by simp [putVal, hm]
    rw [h1]
    simp [putVal, getOwn_setOwn_self, setOwn_setOwn_same]

/-! ## Lemmas on numbers -/

/-- A natural number below `2^53` is a double. -/
theorem roundDouble_small (k : Nat) (h : k < 2 ^ 53) : roundDouble k = some k := by
  have hs : dropBits k k = 0 := by
    cases k with
    | zero => rfl
    | succ j => simp only [dropBits, h, if_true]
  have hk : k < 16 ^ 256 := lt_trans h (by norm_num)
  have h1 : k % 1 = 0 := Nat.mod_one k
  simp only [roundDouble, hs, pow_zero, Nat.div_one, h1, mul_one]
  have hq : ¬ (1 / 2 < 0 ∨ 0 = 1 / 2 ∧ 0 < 0 ∧ k % 2 = 1) := by
    rintro (h2 | ⟨_, h2, _⟩)
    · exact Nat.not_lt_zero _ h2
    · exact Nat.lt_irrefl _ h2
  rw [if_neg hq, if_pos hk]

/-- Below `2^53` the increment of line 108 is exact. -/
theorem add_one_small (k : Nat) (h : k < 2 ^ 53) :
    (Val.num k).add (.num 1) = .num (k + 1) := by
  by_cases h1 : k + 1 < 2 ^ 53
  · simp [Val.add, Val.toPrimitive, Val.toNumber, Val.addNumbers, roundDouble_small _ h1]
  · have hk : k + 1 = 2 ^ 53 := by omega
    simp only [Val.add, Val.toPrimitive, Val.toNumber, Val.addNumbers, hk]
    rfl

/-- At `2^53` the increment of line 108 changes nothing. -/
theorem add_one_saturated : (Val.num (2 ^ 53)).add (.num 1) = .num (2 ^ 53) := by
  rfl

/-! ## The join handler -/

/-- The join handler spelled out when the room is new. -/
theorem joinRoom_new (S : State) (u p : JsString)
    (h : getOwn S.activeRooms (resolve u p) = none) :
    joinRoom S u p = .ok
      { state :=
          { activeRooms := setOwn S.activeRooms (resolve u p) { history := none },
            unreadMessages :=
              setOwn (setOwn S.unreadMessages (resolve u p) []) (resolve u p) (putVal [] u (.num 0)) },
        roomId := resolve u p,
        emitted := [] } := by
  simp [joinRoom, h, getOwn_setOwn_self, setOwn, historyOf]

/-- The join handler spelled out when the room and its counters exist. -/
theorem joinRoom_existing (S : State) (u p : JsString) (room : Room) (m : Obj Val)
    (h : getOwn S.activeRooms (resolve u p) = some room)
    (hm : getOwn S.unreadMessages (resolve u p) = some m) :
    joinRoom S u p = .ok
      { state :=
          { S with unreadMessages := setOwn S.unreadMessages (resolve u p) (putVal m u (.num 0)) },
        roomId := resolve u p,
        emitted := historyOf S (resolve u p) } := by
  simp [joinRoom, h, hm, historyOf]

/-! ## Splitting a room id -/

theorem split_ne_nil (sep : Nat) (s : JsString) : split sep s ≠ [] := by
  cases s with
  | nil => simp [split]
  | cons c cs =>
    unfold split
    split
    · simp
    · split <;> simp

theorem split_of_not_mem (sep : Nat) (s : JsString) (h : sep ∉ s) : split sep s = [s] := by
  induction s with
  | nil => rfl
  | cons c cs ih =>
    have hc : ¬ c = sep := by
      intro e
      apply h
      simp [e]
    have hcs : sep ∉ cs := by
      intro hm
      apply h
      simp [hm]
    simp [split, hc, ih hcs]

theorem split_append_sep (sep : Nat) (a b : JsString) (h : sep ∉ a) :
    split sep (a ++ sep :: b) = a :: split sep b := by
  induction a with
  | nil => simp [split]
  | cons c cs ih =>
    have hc : ¬ c = sep := by
      intro e
      apply h
      simp [e]
    have hcs : sep ∉ cs := by
      intro hm
      apply h
      simp [hm]
    simp [split, hc, ih hcs]

/-- Line 104 finds `u` as the participant other than the sender `peer` when `u` differs from
`peer` and has no `-`, and `peer` has no `-` or does not sort before `u`. -/
theorem receiver_of_resolve (u peer : JsString) (hne : u ≠ peer) (hu : dash ∉ u)
    (hp : dash ∉ peer ∨ strLt peer u = false) :
    (split dash (resolve u peer)).find? (fun user => user != peer) = some u := by
  have hb : (u != peer) = true := by simpa using hne
  rw [resolve_eq]
  cases hlt : strLt peer u with
  | true =>
    have hp' : dash ∉ peer := by
      rcases hp with hp | hp
      · exact hp
      · rw [hlt] at hp
        cases hp
    simp only [if_true]
    rw [split_append_sep dash peer u hp', split_of_not_mem dash u hu]
    simp [List.find?, hb]
  | false =>
    simp only [Bool.false_eq_true, if_false]
    rw [split_append_sep dash u peer hu]
    simp [List.find?, hb]

/-! ## The send handler -/

/-- The send handler spelled out on a socket whose room and counters exist. -/
theorem SEND_joined (S : State) (roomId : JsString) (msg : Message) (room : Room) (m : Obj Val)
    (hr : getOwn S.activeRooms roomId = some room)
    (hm : getOwn S.unreadMessages roomId = some m) :
    SEND S (some roomId) msg = .ok
      { activeRooms :=
          setOwn S.activeRooms roomId { history := some (historyOf S roomId ++ [msg]) },
        unreadMessages :=
          setOwn S.unreadMessages roomId
            (putVal m (receiverKey roomId msg) ((getVal m (receiverKey roomId msg)).add (.num 1))) } := by
  obtain ⟨hist⟩ := room
  cases hist <;> simp [SEND, hr, hm, historyOf, receiverKey]

theorem historyOf_setOwn_self (S : State) (roomId : JsString) (h : List Message) (um : Obj (Obj Val)) :
    historyOf { activeRooms := setOwn S.activeRooms roomId { history := some h },
                unreadMessages := um } roomId = h := by
  simp [historyOf, getOwn_setOwn_self]

/-- Sends on a socket whose room and counters exist all succeed and append to the history. -/
theorem sendAll_history (roomId : JsString) (ms : List Message) :
    ∀ (S : State) (room : Room) (m : Obj Val),
      getOwn S.activeRooms roomId = some room → getOwn S.unreadMessages roomId = some m →
      ∃ S', sendAll S (some roomId) ms = .ok S' ∧ historyOf S' roomId = historyOf S roomId ++ ms := by
  induction ms with
  | nil =>
    intro S room m _ _
    exact ⟨S, rfl, by simp⟩
  | cons msg rest ih =>
    intro S room m hr hm
    have hs := SEND_joined S roomId msg room m hr hm
    obtain ⟨S', hS', hh⟩ := ih
      { activeRooms :=
          setOwn S.activeRooms roomId { history := some (historyOf S roomId ++ [msg]) },
        unreadMessages :=
          setOwn S.unreadMessages roomId
            (putVal m (receiverKey roomId msg) ((getVal m (receiverKey roomId msg)).add (.num 1))) }
      _ _
      (getOwn_setOwn_self S.activeRooms roomId { history := some (historyOf S roomId ++ [msg]) })
      (getOwn_setOwn_self S.unreadMessages roomId
        (putVal m (receiverKey roomId msg) ((getVal m (receiverKey roomId msg)).add (.num 1))))
    refine ⟨S', ?_, ?_⟩
    · simp only [sendAll, hs]
      exact hS'
    · rw [hh, historyOf_setOwn_self]
      simp

/-- Sends whose receiver key is `u` raise the stored counter of `u` from `k` by their number,
up to `2^53`, where the increment stops changing it. -/
theorem sendAll_counter (roomId u : JsString) (ms : List Message)
    (hrecv : ∀ msg ∈ ms, receiverKey roomId msg = u) :
    ∀ (S : State) (room : Room) (k : Nat), k ≤ 2 ^ 53 →
      getOwn S.activeRooms roomId = some room → counter S roomId u = some (.num k) →
      ∃ S', sendAll S (some roomId) ms = .ok S' ∧
        counter S' roomId u = some (.num (min (k + ms.length) (2 ^ 53))) := by
  induction ms with
  | nil =>
    intro S room k hle _ hk
    refine ⟨S, rfl, ?_⟩
    rw [hk, List.length_nil, Nat.add_zero, Nat.min_eq_left hle]
  | cons msg rest ih =>
    intro S room k hle hr hk
    have hrest : ∀ msg' ∈ rest, receiverKey roomId msg' = u := fun msg' hmem =>
      hrecv msg' (List.mem_cons_of_mem _ hmem)
    have hkey : receiverKey roomId msg = u := hrecv msg (List.mem_cons_self _ _)
    unfold counter at hk
    cases hm : getOwn S.unreadMessages roomId with
    | none => simp [hm] at hk
    | some m =>
      simp only [hm] at hk
      have hs := SEND_joined S roomId msg room m hr hm
      rw [hkey] at hs
      have hval : (getVal m u).add (.num 1) = .num (min (k + 1) (2 ^ 53)) := by
        have hg : getVal m u = .num k := by simp [getVal, hk]
        rw [hg]
        by_cases hlt : k < 2 ^ 53
        · rw [add_one_small k hlt, Nat.min_eq_left (by omega)]
        · have hk53 : k = 2 ^ 53 := by omega
          rw [hk53, add_one_saturated, Nat.min_eq_right (by omega)]
      rw [hval] at hs
      obtain ⟨S', hS', hc⟩ := ih hrest
        { activeRooms :=
            setOwn S.activeRooms roomId { history := some (historyOf S roomId ++ [msg]) },
          unreadMessages :=
            setOwn S.unreadMessages roomId (putVal m u (.num (min (k + 1) (2 ^ 53)))) }
        _ (min (k + 1) (2 ^ 53)) (Nat.min_le_right _ _)
        (getOwn_setOwn_self S.activeRooms roomId { history := some (historyOf S roomId ++ [msg]) })
        (by simp [counter, getOwn_setOwn_self, getOwn_putVal_of_own m u _ _ hk])
      refine ⟨S', ?_, ?_⟩
      · simp only [sendAll, hs]
        exact hS'
      · rw [hc]
        simp only [List.length_cons]
        congr 2
        omega

/-- After a successful join the room exists and the joiner's counter is `0`, unless the
joiner is called `__proto__`. -/
theorem joinRoom_post (S : State) (u p : JsString) (J : JoinResult)
    (h : joinRoom S u p = .ok J) :
    J.roomId = resolve u p ∧
    (∃ room, getOwn J.state.activeRooms (resolve u p) = some room) ∧
    (u ≠ js "__proto__" → counter J.state (resolve u p) u = some (.num 0)) := by
  cases hr : getOwn S.activeRooms (resolve u p) with
  | none =>
    rw [joinRoom_new S u p hr] at h
    cases h
    refine ⟨rfl, ⟨_, getOwn_setOwn_self _ _ _⟩, ?_⟩
    intro hu
    simp [counter, getOwn_setOwn_self, getOwn_putVal_self _ _ _ hu]
  | some room =>
    cases hm : getOwn S.unreadMessages (resolve u p) with
    | none => simp [joinRoom, hr, hm] at h
    | some m =>
      rw [joinRoom_existing S u p room m hr hm] at h
      cases h
      refine ⟨rfl, ⟨room, hr⟩, ?_⟩
      intro hu
      simp [counter, getOwn_setOwn_self, getOwn_putVal_self _ _ _ hu]

/-- A join succeeds exactly when it does not meet a room without counters. -/
theorem joinRoom_ok_of_tracked (S : State) (u p : JsString)
    (h : (getOwn S.activeRooms (resolve u p)).isSome →
      (getOwn S.unreadMessages (resolve u p)).isSome) :
    ∃ J, joinRoom S u p = .ok J := by
  cases hr : getOwn S.activeRooms (resolve u p) with
  | none => exact ⟨_, joinRoom_new S u p hr⟩
  | some room =>
    cases hm : getOwn S.unreadMessages (resolve u p) with
    | none => simp [hr, hm] at h
    | some m => exact ⟨_, joinRoom_existing S u p room m hr hm⟩

/-! ## Participants and substrings -/

theorem mem_cuts_append (l r : JsString) : (l, r) ∈ cuts (l ++ dash :: r) := by
  induction l with
  | nil => simp [cuts]
  | cons x l' ih =>
    simp only [List.cons_append, cuts, List.mem_append, List.mem_map]
    exact Or.inr ⟨(l', r), ih, rfl⟩

/-- A room id has `u` as a component exactly when it is the room id of `u` and some peer. -/
theorem hasParticipant_iff (roomId u : JsString) :
    hasParticipant roomId u = true ↔ ∃ p, roomId = resolve u p := by
  constructor
  · intro h
    simp only [hasParticipant, List.any_eq_true, Bool.and_eq_true, Bool.or_eq_true,
      beq_iff_eq] at h
    obtain ⟨lr, _, hu, hres⟩ := h
    rcases hu with hu | hu
    · exact ⟨lr.2, by rw [← hu, hres]⟩
    · exact ⟨lr.1, by rw [← hu, resolve_comm, hres]⟩
  · rintro ⟨p, rfl⟩
    simp only [hasParticipant, List.any_eq_true, Bool.and_eq_true, Bool.or_eq_true,
      beq_iff_eq]
    cases hlt : strLt p u with
    | true =>
      refine ⟨(p, u), ?_, Or.inr rfl, resolve_comm p u⟩
      rw [resolve_eq, hlt]
      exact mem_cuts_append p u
    | false =>
      refine ⟨(u, p), ?_, Or.inl rfl, rfl⟩
      rw [resolve_eq, hlt]
      exact mem_cuts_append u p

/-! ## The invariant along runs -/

theorem joinRoom_tracked (S : State) (u p : JsString) (J : JoinResult)
    (h : joinRoom S u p = .ok J) (hT : Tracked S) : Tracked J.state := by
  cases hr : getOwn S.activeRooms (resolve u p) with
  | none =>
    rw [joinRoom_new S u p hr] at h
    cases h
    intro r hmem
    simp only [mem_objectKeys_setOwn] at hmem ⊢
    rcases hmem with hmem | hmem
    · exact Or.inl (Or.inl (hT r hmem))
    · exact Or.inr hmem
  | some room =>
    cases hm : getOwn S.unreadMessages (resolve u p) with
    | none => simp [joinRoom, hr, hm] at h
    | some m =>
      rw [joinRoom_existing S u p room m hr hm] at h
      cases h
      intro r hmem
      simp only [mem_objectKeys_setOwn]
      exact Or.inl (hT r hmem)

theorem SEND_tracked (S S' : State) (socketRoomId : Option JsString) (msg : Message)
    (h : SEND S socketRoomId msg = .ok S') (hT : Tracked S) : Tracked S' := by
  cases socketRoomId with
  | none => simp [SEND] at h
  | some roomId =>
    cases hm : getOwn S.unreadMessages roomId with
    | none => simp [SEND, hm] at h
    | some m =>
      cases hr : getOwn S.activeRooms roomId with
      | none => simp [SEND, hm, hr] at h
      | some room =>
        rw [SEND_joined S roomId msg room m hr hm] at h
        cases h
        intro r hmem
        simp only [mem_objectKeys_setOwn] at hmem ⊢
        rcases hmem with hmem | hmem
        · exact Or.inl (hT r hmem)
        · exact Or.inr hmem

theorem leaveRoom_tracked (S : State) (socketRoomId : Option JsString) (L : LeaveResult)
    (h : leaveRoom S socketRoomId = .ok L) (hT : Tracked S) : Tracked L.state := by
  cases socketRoomId with
  | none =>
    simp only [leaveRoom, Except.ok.injEq] at h
    rw [← h]
    exact hT
  | some roomId =>
    by_cases he : roomId = []
    · simp only [leaveRoom, he, if_true, Except.ok.injEq] at h
      rw [← h]
      exact hT
    · cases hr : getOwn S.activeRooms roomId with
      | none => simp [leaveRoom, he, hr] at h
      | some room =>
        cases hm : getOwn S.unreadMessages roomId with
        | none => simp [leaveRoom, he, hr, hm] at h
        | some m =>
          simp only [leaveRoom, he, if_false, hr, hm, Except.ok.injEq] at h
          rw [← h]
          intro r hmem
          simp only [mem_objectKeys_setOwn]
          exact Or.inl (hT r hmem)

theorem step_tracked (w w' : World) (e : Event) (h : step w e = .ok w')
    (hT : Tracked w.state) : Tracked w'.state := by
  cases e with
  | joinRoom c sender receiver =>
    simp only [step] at h
    cases hj : joinRoom w.state sender receiver with
    | error err => simp [hj] at h
    | ok J =>
      simp only [hj, Except.ok.injEq] at h
      rw [← h]
      exact joinRoom_tracked _ _ _ _ hj hT
  | SEND c msg =>
    simp only [step] at h
    cases hs : SEND w.state (w.sockets.lookup c) msg with
    | error err => simp [hs] at h
    | ok S' =>
      simp only [hs, Except.ok.injEq] at h
      rw [← h]
      exact SEND_tracked _ _ _ _ hs hT
  | leaveRoom c =>
    simp only [step] at h
    cases hl : leaveRoom w.state (w.sockets.lookup c) with
    | error err => simp [hl] at h
    | ok L =>
      simp only [hl, Except.ok.injEq] at h
      rw [← h]
      exact leaveRoom_tracked _ _ _ hl hT

theorem run_tracked (es : List Event) :
    ∀ w w' : World, run w es = .ok w' → Tracked w.state → Tracked w'.state := by
  induction es with
  | nil =>
    intro w w' h hT
    simp only [run, Except.ok.injEq] at h
    rw [← h]
    exact hT
  | cons e rest ih =>
    intro w w' h hT
    simp only [run] at h
    cases hs : step w e with
    | error err => simp [hs] at h
    | ok w1 =>
      simp only [hs] at h
      exact ih w1 w' h (step_tracked w w1 e hs hT)

/-- In every reachable world every room of `activeRooms` has its counters. -/
theorem reachable_tracked (w : World) (h : Reachable w) : Tracked w.state := by
  obtain ⟨es, hes⟩ := h
  refine run_tracked es World.empty w hes ?_
  intro r hmem
  simp [World.empty, State.empty, objectKeys] at hmem

/-- Over rooms that all have counters, the `map` of lines 57-60 completes, one entry per room. -/
theorem roomsWithUnreadCounts_ok (S : State) (u : JsString) (rooms : List JsString)
    (h : ∀ r ∈ rooms, r ∈ objectKeys S.unreadMessages) :
    ∃ entries, roomsWithUnreadCounts S u rooms = .ok entries ∧
      entries.map Prod.fst = rooms := by
  induction rooms with
  | nil => exact ⟨[], rfl, rfl⟩
  | cons r rest ih =>
    obtain ⟨entries, he, hk⟩ := ih (fun x hx => h x (List.mem_cons_of_mem _ hx))
    obtain ⟨m, hm⟩ := (mem_objectKeys_iff S.unreadMessages r).mp (h r (List.mem_cons_self _ _))
    refine ⟨(r, getVal m u) :: entries, ?_, ?_⟩
    · simp [roomsWithUnreadCounts, hm, he]
    · simp [hk]

/-! ## Sockets and runs -/

theorem lookup_cons (sockets : List (Nat × JsString)) (c c' : Nat) (r : JsString) :
    List.lookup c ((c', r) :: sockets) = if c = c' then some r else List.lookup c sockets := by
  by_cases h : c = c'
  · simp [List.lookup, h]
  · have hb : (c == c') = false := by simpa using h
    simp [List.lookup, hb, h]

/-- A room that exists keeps existing when a handler completes. -/
theorem joinRoom_keys (S : State) (u p : JsString) (J : JoinResult)
    (h : joinRoom S u p = .ok J) (r : JsString) (hr : r ∈ objectKeys S.activeRooms) :
    r ∈ objectKeys J.state.activeRooms := by
  cases hn : getOwn S.activeRooms (resolve u p) with
  | none =>
    rw [joinRoom_new S u p hn] at h
    cases h
    exact (mem_objectKeys_setOwn _ _ _ _).mpr (Or.inl hr)
  | some room =>
    cases hm : getOwn S.unreadMessages (resolve u p) with
    | none => simp [joinRoom, hn, hm] at h
    | some m =>
      rw [joinRoom_existing S u p room m hn hm] at h
      cases h
      exact hr

theorem SEND_keys (S S' : State) (socketRoomId : Option JsString) (msg : Message)
    (h : SEND S socketRoomId msg = .ok S') (r : JsString) (hr : r ∈ objectKeys S.activeRooms) :
    r ∈ objectKeys S'.activeRooms := by
  cases socketRoomId with
  | none => simp [SEND] at h
  | some roomId =>
    cases hm : getOwn S.unreadMessages roomId with
    | none => simp [SEND, hm] at h
    | some m =>
      cases hn : getOwn S.activeRooms roomId with
      | none => simp [SEND, hm, hn] at h
      | some room =>
        rw [SEND_joined S roomId msg room m hn hm] at h
        cases h
        exact (mem_objectKeys_setOwn _ _ _ _).mpr (Or.inl hr)

/-- The leave handler never writes to `activeRooms`. -/
theorem leaveRoom_activeRooms (S : State) (socketRoomId : Option JsString) (L : LeaveResult)
    (h : leaveRoom S socketRoomId = .ok L) : L.state.activeRooms = S.activeRooms := by
  cases socketRoomId with
  | none =>
    simp only [leaveRoom, Except.ok.injEq] at h
    rw [← h]
  | some roomId =>
    by_cases he : roomId = []
    · simp only [leaveRoom, he, if_true, Except.ok.injEq] at h
      rw [← h]
    · cases hr : getOwn S.activeRooms roomId with
      | none => simp [leaveRoom, he, hr] at h
      | some room =>
        cases hm : getOwn S.unreadMessages roomId with
        | none => simp [leaveRoom, he, hr, hm] at h
        | some m =>
          simp only [leaveRoom, he, if_false, hr, hm, Except.ok.injEq] at h
          rw [← h]

/-- The join handler completes in a tracked state and binds the socket to a room that
exists. -/
theorem joinRoom_ok_tracked (S : State) (u p : JsString) (hT : Tracked S) :
    ∃ J, joinRoom S u p = .ok J ∧ J.roomId = resolve u p ∧
      resolve u p ∈ objectKeys J.state.activeRooms := by
  have hcond : (getOwn S.activeRooms (resolve u p)).isSome →
      (getOwn S.unreadMessages (resolve u p)).isSome := by
    intro h
    obtain ⟨room, hroom⟩ := Option.isSome_iff_exists.mp h
    obtain ⟨m, hm⟩ := (mem_objectKeys_iff _ _).mp
      (hT _ ((mem_objectKeys_iff _ _).mpr ⟨room, hroom⟩))
    simp [hm]
  obtain ⟨J, hJ⟩ := joinRoom_ok_of_tracked S u p hcond
  obtain ⟨hid, ⟨room, hroom⟩, _⟩ := joinRoom_post S u p J hJ
  exact ⟨J, hJ, hid, (mem_objectKeys_iff _ _).mpr ⟨room, hroom⟩⟩

/-- What the join handler does to the replayable histories: nothing. -/
theorem joinRoom_historyOf (S : State) (u p : JsString) (J : JoinResult)
    (h : joinRoom S u p = .ok J) (r : JsString) : historyOf J.state r = historyOf S r := by
  cases hn : getOwn S.activeRooms (resolve u p) with
  | none =>
    rw [joinRoom_new S u p hn] at h
    cases h
    by_cases hr : r = resolve u p
    · subst hr
      simp [historyOf, getOwn_setOwn_self, hn]
    · simp [historyOf, getOwn_setOwn_ne _ _ _ _ hr]
  | some room =>
    cases hm : getOwn S.unreadMessages (resolve u p) with
    | none => simp [joinRoom, hn, hm] at h
    | some m =>
      rw [joinRoom_existing S u p room m hn hm] at h
      cases h
      rfl

/-- What a completed send does to the replayable histories: it appends the message to the
history of the socket's room and leaves the others. -/
theorem SEND_historyOf (S S' : State) (roomId : JsString) (msg : Message)
    (h : SEND S (some roomId) msg = .ok S') (r : JsString) :
    historyOf S' r = if roomId = r then historyOf S r ++ [msg] else historyOf S r := by
  cases hm : getOwn S.unreadMessages roomId with
  | none => simp [SEND, hm] at h
  | some m =>
    cases hn : getOwn S.activeRooms roomId with
    | none => simp [SEND, hm, hn] at h
    | some room =>
      rw [SEND_joined S roomId msg room m hn hm] at h
      cases h
      by_cases hr : roomId = r
      · subst hr
        simp [historyOf, getOwn_setOwn_self]
      · have hr' : r ≠ roomId := fun e => hr e.symm
        simp [historyOf, getOwn_setOwn_ne _ _ _ _ hr', hr]

theorem historyOf_congr (S S' : State) (roomId : JsString)
    (h : getOwn S'.activeRooms roomId = getOwn S.activeRooms roomId) :
    historyOf S' roomId = historyOf S roomId := by
  simp only [historyOf, h]

/-- The leave handler completes on a socket that has not joined or whose room has its object
and its counters. -/
theorem leaveRoom_ok (S : State) (socketRoomId : Option JsString)
    (h : ∀ roomId, socketRoomId = some roomId →
      roomId ∈ objectKeys S.activeRooms ∧ roomId ∈ objectKeys S.unreadMessages) :
    ∃ L, leaveRoom S socketRoomId = .ok L := by
  cases socketRoomId with
  | none => exact ⟨_, rfl⟩
  | some roomId =>
    obtain ⟨h1, h2⟩ := h roomId rfl
    obtain ⟨room, hr⟩ := (mem_objectKeys_iff _ _).mp h1
    obtain ⟨m, hm⟩ := (mem_objectKeys_iff _ _).mp h2
    by_cases he : roomId = []
    · exact ⟨⟨S, none⟩, by simp [leaveRoom, he]⟩
    · exact ⟨⟨⟨S.activeRooms, setOwn S.unreadMessages roomId
          (putVal m (propKey (room.keys.find? (fun user => user != js "history"))) (.num 0))⟩,
        some S⟩, by simp [leaveRoom, he, hr, hm]⟩

/-- From a world in which every room has its counters and every joined socket its room, a
run whose sends all arrive on joined sockets completes, and the history of every room grows
by exactly the messages sent on the sockets bound to it, in order. -/
theorem run_history (es : List Event) :
    ∀ w : World, Tracked w.state → SocketsTracked w → sendsJoined w.sockets es = true →
      ∃ w', run w es = .ok w' ∧
        ∀ r, historyOf w'.state r = historyOf w.state r ++ sentTo r w.sockets es := by
  induction es with
  | nil =>
    intro w _ _ _
    exact ⟨w, rfl, fun r => by simp [sentTo]⟩
  | cons e rest ih =>
    intro w hT hS hj
    cases e with
    | joinRoom c sender receiver =>
      obtain ⟨J, hJ, hid, hmem⟩ := joinRoom_ok_tracked w.state sender receiver hT
      have hT1 : Tracked J.state := joinRoom_tracked _ _ _ _ hJ hT
      have hS1 : SocketsTracked
          { w with state := J.state, sockets := (c, J.roomId) :: w.sockets } := by
        intro c' r hl
        simp only [lookup_cons] at hl
        by_cases hc : c' = c
        · simp only [hc, if_true, Option.some.injEq] at hl
          rw [← hl, hid]
          exact hmem
        · simp only [hc, if_false] at hl
          exact joinRoom_keys _ _ _ _ hJ r (hS c' r hl)
      have hj1 : sendsJoined ((c, J.roomId) :: w.sockets) rest = true := by
        rw [hid]
        simpa [sendsJoined] using hj
      obtain ⟨w', hw', hh⟩ := ih _ hT1 hS1 hj1
      refine ⟨w', ?_, ?_⟩
      · simp only [run, step, hJ]
        exact hw'
      · intro r
        rw [hh r, joinRoom_historyOf _ _ _ _ hJ r]
        simp only [sentTo, hid]
    | SEND c msg =>
      simp only [sendsJoined, Bool.and_eq_true] at hj
      obtain ⟨hsome, hj1⟩ := hj
      obtain ⟨roomId, hl⟩ := Option.isSome_iff_exists.mp hsome
      obtain ⟨room, hr⟩ := (mem_objectKeys_iff _ _).mp (hS c roomId hl)
      obtain ⟨m, hm⟩ := (mem_objectKeys_iff _ _).mp (hT roomId (hS c roomId hl))
      have hs := SEND_joined w.state roomId msg room m hr hm
      have hT1 := SEND_tracked _ _ _ _ hs hT
      have hS1 : SocketsTracked { w with state :=
          { activeRooms :=
              setOwn w.state.activeRooms roomId
                { history := some (historyOf w.state roomId ++ [msg]) },
            unreadMessages :=
              setOwn w.state.unreadMessages roomId
                (putVal m (receiverKey roomId msg)
                  ((getVal m (receiverKey roomId msg)).add (.num 1))) } } := by
        intro c' r hl'
        exact SEND_keys _ _ _ _ hs r (hS c' r hl')
      obtain ⟨w', hw', hh⟩ := ih _ hT1 hS1 hj1
      refine ⟨w', ?_, ?_⟩
      · simp only [run, step, hl, hs]
        exact hw'
      · intro r
        rw [hh r, SEND_historyOf _ _ _ _ hs r]
        simp only [sentTo, hl, Option.some.injEq]
        by_cases hrr : roomId = r
        · simp [hrr]
        · simp [hrr]
    | leaveRoom c =>
      obtain ⟨L, hL⟩ := leaveRoom_ok w.state (w.sockets.lookup c) (by
        intro roomId hl
        exact ⟨hS c roomId hl, hT roomId (hS c roomId hl)⟩)
      have hT1 := leaveRoom_tracked _ _ _ hL hT
      have har := leaveRoom_activeRooms _ _ _ hL
      have hS1 : SocketsTracked
          { w with state := L.state, disk := L.saved.orElse (fun _ => w.disk) } := by
        intro c' r hl'
        show r ∈ objectKeys L.state.activeRooms
        rw [har]
        exact hS c' r hl'
      have hj1 : sendsJoined w.sockets rest = true := by
        simpa [sendsJoined] using hj
      obtain ⟨w', hw', hh⟩ := ih _ hT1 hS1 hj1
      refine ⟨w', ?_, ?_⟩
      · simp only [run, step, hL]
        exact hw'
      · intro r
        rw [hh r]
        simp only [sentTo]
        rw [historyOf_congr w.state L.state r (by rw [har])]

/-- In a reachable world the room-list query completes, with one entry per selected room,
and the list is empty when no room id contains the user's identifier. -/
theorem listRooms_ok_of_reachable (w : World) (u : JsString) (h : Reachable w) :
    Tracked w.state ∧
    ∃ entries, listRooms w.state u = .ok entries ∧
      entries.map Prod.fst = userRooms w.state u ∧
      ((∀ roomId ∈ objectKeys w.state.activeRooms, includes roomId u = false) →
        entries = []) := by
  have hT := reachable_tracked w h
  refine ⟨hT, ?_⟩
  have hsel : ∀ r ∈ userRooms w.state u, r ∈ objectKeys w.state.unreadMessages := by
    intro r hr
    exact hT r (List.mem_filter.mp hr).1
  obtain ⟨entries, he, hk⟩ := roomsWithUnreadCounts_ok w.state u (userRooms w.state u) hsel
  refine ⟨entries, he, hk, ?_⟩
  intro hnone
  have hempty : userRooms w.state u = [] := by
    unfold userRooms
    rw [List.filter_eq_nil_iff]
    intro r hr
    simp [hnone r hr]
  rw [hempty] at hk
  simpa using hk

/-! ## Exceptions -/

/-- The handler result is the effect read as an outcome. -/
theorem SEND_eq_effect (S : State) (socketRoomId : Option JsString) (msg : Message) :
    SEND S socketRoomId msg =
      match SENDEffect S socketRoomId msg with
      | (S', none) => .ok S'
      | (_, some e) => .error e := by
  cases socketRoomId with
  | none => rfl
  | some roomId =>
    cases hm : getOwn S.unreadMessages roomId with
    | none => simp [SEND, SENDEffect, hm]
    | some m =>
      cases hr : getOwn S.activeRooms roomId with
      | none => simp [SEND, SENDEffect, hm, hr]
      | some room => simp [SEND, SENDEffect, hm, hr, receiverKey]

/-- The join handler throws exactly when the room exists without counters. -/
theorem joinRoom_ok_iff (S : State) (u p : JsString) :
    (∃ J, joinRoom S u p = .ok J) ↔
      ((getOwn S.activeRooms (resolve u p)).isSome →
        (getOwn S.unreadMessages (resolve u p)).isSome) := by
  constructor
  · rintro ⟨J, hJ⟩ hsome
    cases hr : getOwn S.activeRooms (resolve u p) with
    | none => simp [hr] at hsome
    | some room =>
      cases hm : getOwn S.unreadMessages (resolve u p) with
      | none => simp [joinRoom, hr, hm] at hJ
      | some m => rfl
  · exact joinRoom_ok_of_tracked S u p

/-- The join handler's result is its effect read as an outcome. -/
theorem joinState_eq_effect (S : State) (sender receiver : JsString) :
    joinState S sender receiver =
      match joinRoomEffect S sender receiver with
      | (S', none) => .ok S'
      | (_, some e) => .error e := by
  cases hr : getOwn S.activeRooms (resolve sender receiver) with
  | none => simp [joinState, joinRoom, joinRoomEffect, hr, getOwn_setOwn_self]
  | some room =>
    cases hm : getOwn S.unreadMessages (resolve sender receiver) with
    | none => simp [joinState, joinRoom, joinRoomEffect, hr, hm]
    | some m => simp [joinState, joinRoom, joinRoomEffect, hr, hm]

/-- What the join handler leaves in memory, room by room. -/
theorem joinRoomEffect_frame (S : State) (sender receiver : JsString) :
    (∀ room, getOwn S.activeRooms (resolve sender receiver) = some room →
      getOwn (joinRoomEffect S sender receiver).1.activeRooms (resolve sender receiver)
        = some room ∧
      historyOf (joinRoomEffect S sender receiver).1 (resolve sender receiver)
        = historyOf S (resolve sender receiver) ∧
      ∀ v, v ≠ sender →
        counter (joinRoomEffect S sender receiver).1 (resolve sender receiver) v
          = counter S (resolve sender receiver) v) ∧
    (getOwn S.activeRooms (resolve sender receiver) = none →
      getOwn (joinRoomEffect S sender receiver).1.activeRooms (resolve sender receiver)
        = some { history := none } ∧
      historyOf (joinRoomEffect S sender receiver).1 (resolve sender receiver) = [] ∧
      (joinRoomEffect S sender receiver).2 = none) ∧
    (∀ r, r ≠ resolve sender receiver →
      getOwn (joinRoomEffect S sender receiver).1.activeRooms r = getOwn S.activeRooms r ∧
      getOwn (joinRoomEffect S sender receiver).1.unreadMessages r
        = getOwn S.unreadMessages r) ∧
    ((joinRoomEffect S sender receiver).2 = none → sender ≠ js "__proto__" →
      counter (joinRoomEffect S sender receiver).1 (resolve sender receiver) sender
        = some (.num 0)) := by
  cases hr : getOwn S.activeRooms (resolve sender receiver) with
  | none =>
    have he : joinRoomEffect S sender receiver =
        ({ activeRooms := setOwn S.activeRooms (resolve sender receiver) { history := none },
           unreadMessages :=
             setOwn (setOwn S.unreadMessages (resolve sender receiver) [])
               (resolve sender receiver) (putVal [] sender (.num 0)) }, none) := by
      simp [joinRoomEffect, hr, getOwn_setOwn_self, setOwn]
    rw [he]
    refine ⟨?_, ?_, ?_, ?_⟩
    · intro room h
      cases h
    · intro _
      simp [historyOf, getOwn_setOwn_self]
    · intro r hne
      simp [getOwn_setOwn_ne _ _ _ _ hne]
    · intro _ hs
      simp [counter, getOwn_setOwn_self, getOwn_putVal_self _ _ _ hs]
  | some room =>
    cases hm : getOwn S.unreadMessages (resolve sender receiver) with
    | none =>
      have he : joinRoomEffect S sender receiver = (S, some .typeError) := by
        simp [joinRoomEffect, hr, hm]
      rw [he]
      refine ⟨?_, ?_, ?_, ?_⟩
      · intro room' h
        exact ⟨hr.trans h, rfl, fun _ _ => rfl⟩
      · intro h
        cases h
      · intro r _
        exact ⟨rfl, rfl⟩
      · intro h
        cases h
    | some m =>
      have he : joinRoomEffect S sender receiver =
          ({ S with unreadMessages :=
              setOwn S.unreadMessages (resolve sender receiver) (putVal m sender (.num 0)) },
           none) := by
        simp [joinRoomEffect, hr, hm]
      rw [he]
      refine ⟨?_, ?_, ?_, ?_⟩
      · intro room' h
        refine ⟨hr.trans h, rfl, ?_⟩
        intro v hv
        simp [counter, getOwn_setOwn_self, hm, getOwn_putVal_ne _ _ _ _ hv]
      · intro h
        cases h
      · intro r hne
        simp [getOwn_setOwn_ne _ _ _ _ hne]
      · intro _ hs
        simp [counter, getOwn_setOwn_self, getOwn_putVal_self _ _ _ hs]

/-! ## Claims -/

/-- The counter of `u` after the sends, up to `2^53`, under the conditions on the two
identifiers that make line 104 find `u`. -/
theorem counterAfterSends_min (S0 : State) (u peer : JsString) (ms : List Message)
    (hne : u ≠ peer) (hu : dash ∉ u) (hproto : u ≠ js "__proto__")
    (hp : dash ∉ peer ∨ strLt peer u = false)
    (hjoin : ∃ J, joinRoom S0 u peer = .ok J)
    (hms : ∀ msg ∈ ms, msg.sender = peer) :
    counterAfterSends S0 u peer ms = .ok (some (.num (min ms.length (2 ^ 53)))) := by
  obtain ⟨J, hJ⟩ := hjoin
  obtain ⟨_, ⟨room, hroom⟩, hzero⟩ := joinRoom_post S0 u peer J hJ
  have hrecv : ∀ msg ∈ ms, receiverKey (resolve u peer) msg = u := by
    intro msg hmem
    simp [receiverKey, hms msg hmem, receiver_of_resolve u peer hne hu hp, propKey]
  obtain ⟨S', hS', hc⟩ :=
    sendAll_counter (resolve u peer) u ms hrecv J.state room 0 (Nat.zero_le _) hroom
      (hzero hproto)
  simp only [counterAfterSends, hJ, resolve_comm peer u, hS', hc]
  simp

/-- C1, as stated, fails, each time with one message from the peer, or with `2^53 + 1` of
them: when a user chats with itself, when the joiner's identifier contains `-`, and when the
peer's identifier contains `-` and sorts first, line 104 derives another receiver key and
the joiner's counter stays `0`; when the joiner is called `__proto__`, lines 90 and 108 store
nothing and there is no counter; and after `2^53 + 1` messages the counter is `2^53`,
because a double at `2^53` is not changed by `+ 1`. -/
theorem counterAfterSends_counterexample :
    counterAfterSends State.empty (js "amy") (js "amy") [⟨js "amy", js "hi"⟩]
      = .ok (some (.num 0)) ∧
    counterAfterSends State.empty (js "a-b") (js "c") [⟨js "c", js "hi"⟩]
      = .ok (some (.num 0)) ∧
    counterAfterSends State.empty (js "z") (js "a-b") [⟨js "a-b", js "hi"⟩]
      = .ok (some (.num 0)) ∧
    counterAfterSends State.empty (js "__proto__") (js "bob") [⟨js "bob", js "hi"⟩]
      = .ok none ∧
    counterAfterSends State.empty (js "amy") (js "bob")
        (List.replicate (2 ^ 53 + 1) ⟨js "bob", js "hi"⟩)
      = .ok (some (.num (2 ^ 53))) := by
  refine ⟨rfl, rfl, rfl, rfl, ?_⟩
  have h := counterAfterSends_min State.empty (js "amy") (js "bob")
    (List.replicate (2 ^ 53 + 1) ⟨js "bob", js "hi"⟩)
    (by decide) (by decide) (by decide) (Or.inl (by decide)) ⟨_, rfl⟩
    (fun msg hmem => by rw [List.eq_of_mem_replicate hmem])
  rw [List.length_replicate] at h
  rw [h]
  congr 3

/-- C1, amended: for two distinct users `u` and `peer` such that `u` contains no `-` and is
not `__proto__`, and `peer` contains no `-` or does not sort before `u`, from any state in
which the join of `u` succeeds, after `u` joins and `peer`'s socket sends `N <= 2^53`
messages, each with sender `peer`, every send succeeds and the counter of `u` in the room is
`N`. -/
theorem counterAfterSends_eq_length (S0 : State) (u peer : JsString) (ms : List Message)
    (hne : u ≠ peer) (hu : dash ∉ u) (hproto : u ≠ js "__proto__")
    (hp : dash ∉ peer ∨ strLt peer u = false)
    (hN : ms.length ≤ 2 ^ 53)
    (hjoin : ∃ J, joinRoom S0 u peer = .ok J)
    (hms : ∀ msg ∈ ms, msg.sender = peer) :
    counterAfterSends S0 u peer ms = .ok (some (.num ms.length)) := by
  rw [counterAfterSends_min S0 u peer ms hne hu hproto hp hjoin hms, Nat.min_eq_left hN]

/-- Witness of C1, amended: "a" joins, then "b-c", whose identifier contains `-` and sorts
after "a", sends three messages. -/
theorem counterAfterSends_eq_length_witness :
    counterAfterSends State.empty (js "a") (js "b-c")
      [⟨js "b-c", js "x"⟩, ⟨js "b-c", js "y"⟩, ⟨js "b-c", js "z"⟩] = .ok (some (.num 3)) :=
  counterAfterSends_eq_length State.empty (js "a") (js "b-c")
    [⟨js "b-c", js "x"⟩, ⟨js "b-c", js "y"⟩, ⟨js "b-c", js "z"⟩]
    (by decide) (by decide) (by decide) (Or.inr (by decide)) (by decide) ⟨_, rfl⟩ (by decide)

/-- C2: from any world in which every room has its counters and every joined socket its
room (the empty world is one), every run of `joinRoom`, `SEND` and `leaveRoom` events whose
sends arrive on joined sockets completes, and the stored history of every room grows by
exactly the messages sent on the sockets bound to that room, in the order sent and
unmodified, whatever joins and leaves come in between; for a room that did not exist as the
run started, the history is exactly those messages and has their number. -/
theorem history_of_run (w : World) (es : List Event)
    (hT : Tracked w.state) (hS : SocketsTracked w) (hj : sendsJoined w.sockets es = true) :
    ∃ w', run w es = .ok w' ∧
      ∀ r, historyOf w'.state r = historyOf w.state r ++ sentTo r w.sockets es ∧
        (getOwn w.state.activeRooms r = none →
          historyOf w'.state r = sentTo r w.sockets es ∧
          (historyOf w'.state r).length = (sentTo r w.sockets es).length) := by
  obtain ⟨w', hw', hh⟩ := run_history es w hT hS hj
  refine ⟨w', hw', fun r => ⟨hh r, ?_⟩⟩
  intro hnone
  have h0 : historyOf w.state r = [] := by simp [historyOf, hnone]
  have h1 : historyOf w'.state r = sentTo r w.sockets es := by rw [hh r, h0, List.nil_append]
  exact ⟨h1, by rw [h1]⟩

/-- Witness of C2: the interleaved run from the empty world; the room "amy-bob" holds the
three messages in the order sent. -/
theorem history_of_run_witness :
    ∃ w', run World.empty interleavedEvents = .ok w' ∧
      historyOf w'.state (js "amy-bob")
        = [{ sender := js "amy", payload := js "hi" },
           { sender := js "bob", payload := js "yo" },
           { sender := js "amy", payload := js "ok" }] := by
  obtain ⟨w', hw', hh⟩ := history_of_run World.empty interleavedEvents
    (by intro r hr; simp [World.empty, State.empty, objectKeys] at hr)
    (by intro c r hl; simp [World.empty] at hl)
    rfl
  exact ⟨w', hw', ((hh (js "amy-bob")).2 rfl).1.trans rfl⟩

/-- C3: the room id is symmetric in its two identifiers, and it is the two identifiers in
code-unit order joined by `-`; `resolve` is a total function. -/
theorem resolve_symmetric (a b : JsString) :
    resolve a b = resolve b a ∧
    ((strLt b a = false ∧ resolve a b = a ++ dash :: b) ∨
     (strLt b a = true ∧ resolve a b = b ++ dash :: a)) := by
  refine ⟨resolve_comm a b, ?_⟩
  rw [resolve_eq]
  cases h : strLt b a <;> simp

/-- C4, the code at the failing input: the file `{"activeRooms":{"amy-bob":{}}}` loads as a
state whose room has no counters, and amy's join then throws at line 90, so that no counter
is set. Also, the join of a user called `__proto__` completes and stores no counter. -/
theorem joinRoom_missing_counters :
    loadChatHistory State.empty (some fileWithoutCounters)
      = some { activeRooms := [(js "amy-bob", { history := none })], unreadMessages := [] } ∧
    joinRoom { activeRooms := [(js "amy-bob", { history := none })], unreadMessages := [] }
      (js "amy") (js "bob") = .error .typeError ∧
    ∃ J, joinRoom State.empty (js "__proto__") (js "bob") = .ok J ∧
      counter J.state (resolve (js "__proto__") (js "bob")) (js "__proto__") = none :=
  ⟨rfl, rfl, _, rfl, rfl⟩

/-- C5, the code at two failing inputs. After amy joins with peer bob and sends one message,
the stored counter of bob is `NaN`, so the claimed sum is `NaN`, but the query answers `0`.
And after "xundefined" joins a room with itself, leaves and sends one message, the query for
"undefined" answers `1` although no room has "undefined" as a component (claimed sum `0`). -/
theorem unreadTotal_counterexample :
    (∃ w, run World.empty
        [.joinRoom 0 (js "amy") (js "bob"), .SEND 0 { sender := js "amy", payload := js "hi" }]
        = .ok w ∧
      counter w.state (js "amy-bob") (js "bob") = some .nan ∧
      claimedUnreadTotal w.state (js "bob") = .nan ∧
      unreadTotal w.state (js "bob") = .num 0) ∧
    (∃ w, run World.empty
        [.joinRoom 0 (js "xundefined") (js "xundefined"), .leaveRoom 0,
         .SEND 0 { sender := js "xundefined", payload := js "hi" }] = .ok w ∧
      objectKeys w.state.activeRooms = [js "xundefined-xundefined"] ∧
      hasParticipant (js "xundefined-xundefined") (js "undefined") = false ∧
      claimedUnreadTotal w.state (js "undefined") = .num 0 ∧
      unreadTotal w.state (js "undefined") = .num 1) :=
  ⟨⟨_, rfl, rfl, rfl, rfl⟩, ⟨_, rfl, rfl, rfl, rfl, rfl⟩⟩

/-- A user called `toString` who has no counter yet reads the inherited function: the room
list pairs the room with it, and the unread total is the string that `0 + function` gives. -/
theorem queries_inherited_function :
    ∃ w, run World.empty [.joinRoom 0 (js "amy") (js "toString")] = .ok w ∧
      counter w.state (js "amy-toString") (js "toString") = none ∧
      listRooms w.state (js "toString") = .ok [(js "amy-toString", .fn (js "toString"))] ∧
      unreadTotal w.state (js "toString")
        = .str (js "0function toString() { [native code] }") :=
  ⟨_, rfl, rfl, rfl, rfl⟩

/-- C6, the code at the failing input: once amy has joined with peer bob, the room list of
"am" contains the room "amy-bob", of which "am" is no participant, paired with `undefined`
where `countFor` is `0`. -/
theorem listRooms_nonparticipant :
    ∃ w, run World.empty [.joinRoom 0 (js "amy") (js "bob")] = .ok w ∧
      listRooms w.state (js "am") = .ok [(js "amy-bob", .undefined)] ∧
      (¬ ∃ p, js "amy-bob" = resolve (js "am") p) ∧
      countFor w.state (js "amy-bob") (js "am") = .num 0 := by
  refine ⟨_, rfl, rfl, ?_, rfl⟩
  intro hex
  have hp := (hasParticipant_iff (js "amy-bob") (js "am")).mpr hex
  revert hp
  decide

/-- C7, the code at the failing input: once amy has joined with peer bob, "bo" participates
in no room, yet its room list is not empty. -/
theorem listRooms_counterexample :
    ∃ w, Reachable w ∧
      (∀ roomId ∈ objectKeys w.state.activeRooms, hasParticipant roomId (js "bo") = false) ∧
      listRooms w.state (js "bo") = .ok [(js "amy-bob", .undefined)] ∧
      listRooms w.state (js "bo") ≠ .ok [] := by
  refine ⟨amyJoinedWorld, ⟨[.joinRoom 0 (js "amy") (js "bob")], rfl⟩, by decide, rfl, ?_⟩
  intro h
  have h' : listRooms amyJoinedWorld.state (js "bo") = .ok [(js "amy-bob", .undefined)] := rfl
  rw [h'] at h
  cases h

/-- C8, the code at the failing input: amy and bob join, bob sends one message, amy leaves.
Amy's counter is `1` before and after the leave; the handler writes `0` under the key
"undefined" instead. -/
theorem leaveRoom_keeps_own_counter :
    ∃ w w', run World.empty
        [.joinRoom 0 (js "amy") (js "bob"), .joinRoom 1 (js "bob") (js "amy"),
         .SEND 1 { sender := js "bob", payload := js "yo" }] = .ok w ∧
      counter w.state (js "amy-bob") (js "amy") = some (.num 1) ∧
      step w (.leaveRoom 0) = .ok w' ∧
      counter w'.state (js "amy-bob") (js "amy") = some (.num 1) ∧
      counter w'.state (js "amy-bob") (js "undefined") = some (.num 0) :=
  ⟨_, _, rfl, rfl, rfl, rfl, rfl⟩

/-- C9, the code at the failing input: amy joins with peer bob and sends one message before
bob has ever joined; the stored counter of bob becomes `NaN`, not a non-negative integer. -/
theorem counter_nan_reachable :
    ∃ w, Reachable w ∧ counter w.state (js "amy-bob") (js "bob") = some .nan ∧
      ¬ ∃ n : Nat, counter w.state (js "amy-bob") (js "bob") = some (.num n) := by
  refine ⟨amySentWorld,
    ⟨[.joinRoom 0 (js "amy") (js "bob"), .SEND 0 { sender := js "amy", payload := js "hi" }], rfl⟩,
    rfl, ?_⟩
  rintro ⟨n, hn⟩
  have h' : counter amySentWorld.state (js "amy-bob") (js "bob") = some .nan := rfl
  rw [h'] at hn
  cases hn

/-- C10: the scenario from the empty state. Amy's join creates the room "amy-bob" with her
counter `0`; bob's join sets his counter to `0`; amy's "hi" makes bob's counter `1` and the
history exactly that message; bob's "yo" makes amy's counter `1` and the history two
messages long; the unread total of amy is then `1`. -/
theorem scenario_amy_bob :
    ∃ w1 w2 w3 w4,
      step World.empty (.joinRoom 0 (js "amy") (js "bob")) = .ok w1 ∧
      objectKeys w1.state.activeRooms = [js "amy-bob"] ∧
      counter w1.state (js "amy-bob") (js "amy") = some (.num 0) ∧
      step w1 (.joinRoom 1 (js "bob") (js "amy")) = .ok w2 ∧
      counter w2.state (js "amy-bob") (js "bob") = some (.num 0) ∧
      step w2 (.SEND 0 { sender := js "amy", payload := js "hi" }) = .ok w3 ∧
      counter w3.state (js "amy-bob") (js "bob") = some (.num 1) ∧
      historyOf w3.state (js "amy-bob") = [{ sender := js "amy", payload := js "hi" }] ∧
      step w3 (.SEND 1 { sender := js "bob", payload := js "yo" }) = .ok w4 ∧
      counter w4.state (js "amy-bob") (js "amy") = some (.num 1) ∧
      (historyOf w4.state (js "amy-bob")).length = 2 ∧
      unreadTotal w4.state (js "amy") = .num 1 ∧
      run World.empty scenarioEvents = .ok w4 :=
  ⟨_, _, _, _, rfl, rfl, rfl, rfl, rfl, rfl, rfl, rfl, rfl, rfl, rfl, rfl, rfl⟩

/-- In a state in which the room, if it exists, has its counters, the join handler completes
and replays exactly the stored history of the room. -/
theorem joinRoom_emitted (S : State) (sender receiver : JsString)
    (h : (getOwn S.activeRooms (resolve sender receiver)).isSome →
      (getOwn S.unreadMessages (resolve sender receiver)).isSome) :
    ∃ J, joinRoom S sender receiver = .ok J ∧
      J.roomId = resolve sender receiver ∧
      J.emitted = historyOf S (resolve sender receiver) := by
  cases hr : getOwn S.activeRooms (resolve sender receiver) with
  | none =>
    refine ⟨_, joinRoom_new S sender receiver hr, rfl, ?_⟩
    simp [historyOf, hr]
  | some room =>
    cases hm : getOwn S.unreadMessages (resolve sender receiver) with
    | none => simp [hr, hm] at h
    | some m => exact ⟨_, joinRoom_existing S sender receiver room m hr hm, rfl, rfl⟩

/-- C11, the code at the failing input: the file
`{"activeRooms":{"amy-bob":{"history":[{"sender":"amy","payload":"hi"}]}}}` loads as a state
whose room has the history `[hi]` and no counters; amy's join then throws at line 90, before
the replay of lines 93-97, and emits nothing. -/
theorem joinRoom_emitted_counterexample :
    loadChatHistory State.empty (some fileWithHistory) = some untrackedState ∧
    historyOf untrackedState (resolve (js "amy") (js "bob"))
      = [{ sender := js "amy", payload := js "hi" }] ∧
    joinRoom untrackedState (js "amy") (js "bob") = .error .typeError ∧
    ¬ ∃ J, joinRoom untrackedState (js "amy") (js "bob") = .ok J ∧
      J.emitted = historyOf untrackedState (resolve (js "amy") (js "bob")) := by
  have h : joinRoom untrackedState (js "amy") (js "bob") = .error .typeError := rfl
  refine ⟨rfl, rfl, h, ?_⟩
  rintro ⟨J, hJ, _⟩
  rw [h] at hJ
  cases hJ

/-- The state after the amy/bob scenario is written and read back unchanged. -/
theorem saveLoad_scenario :
    loadChatHistory State.empty (some (saveChatHistory scenarioState)) = some scenarioState :=
  rfl

/-- C12, the code at the failing input: the world in which amy has joined and sent "hi"
before bob joined is reachable and holds `NaN` as bob's counter; `JSON.stringify` writes it
as `null`, so the state loaded from the saved file has `null` there and differs from the
state saved, though its history is the same. -/
theorem saveLoad_counterexample :
    Reachable amySentWorld ∧
    counter amySentWorld.state (js "amy-bob") (js "bob") = some .nan ∧
    ∃ S', loadChatHistory State.empty (some (saveChatHistory amySentWorld.state)) = some S' ∧
      counter S' (js "amy-bob") (js "bob") = some .null ∧
      historyOf S' (js "amy-bob") = historyOf amySentWorld.state (js "amy-bob") ∧
      S' ≠ amySentWorld.state := by
  refine ⟨⟨[.joinRoom 0 (js "amy") (js "bob"),
            .SEND 0 { sender := js "amy", payload := js "hi" }], rfl⟩, rfl, _, rfl, rfl, rfl, ?_⟩
  decide

/-- C13, the code at the failing input: at the end of the scenario a `SEND` event arrives on
connection 7, which never joined. Line 104 throws a `TypeError` and the run ends there: no
world remains. Nothing was written before the throw. A `leaveRoom` event on the same
connection is guarded by line 123 and leaves the world as it is. -/
theorem SEND_unjoined_throws :
    run World.empty scenarioEvents = .ok scenarioWorld ∧
    run World.empty (scenarioEvents ++ [.SEND 7 { sender := js "carol", payload := js "hi" }])
      = .error .typeError ∧
    SENDEffect scenarioWorld.state (scenarioWorld.sockets.lookup 7)
      { sender := js "carol", payload := js "hi" } = (scenarioWorld.state, some .typeError) ∧
    run World.empty (scenarioEvents ++ [.leaveRoom 7]) = .ok scenarioWorld :=
  ⟨rfl, rfl, rfl, rfl⟩

/-- A join by a user called `__proto__` who has no own counter stores none. -/
theorem joinRoomEffect_proto (S : State) (receiver : JsString)
    (h : counter S (resolve (js "__proto__") receiver) (js "__proto__") = none) :
    counter (joinRoomEffect S (js "__proto__") receiver).1
      (resolve (js "__proto__") receiver) (js "__proto__") = none := by
  cases hr : getOwn S.activeRooms (resolve (js "__proto__") receiver) with
  | none =>
    have he : joinRoomEffect S (js "__proto__") receiver =
        ({ activeRooms :=
             setOwn S.activeRooms (resolve (js "__proto__") receiver) { history := none },
           unreadMessages :=
             setOwn (setOwn S.unreadMessages (resolve (js "__proto__") receiver) [])
               (resolve (js "__proto__") receiver) (putVal [] (js "__proto__") (.num 0)) },
         none) := by
      simp [joinRoomEffect, hr, getOwn_setOwn_self, setOwn]
    rw [he]
    simp [counter, getOwn_setOwn_self, putVal, getOwn]
  | some room =>
    cases hm : getOwn S.unreadMessages (resolve (js "__proto__") receiver) with
    | none =>
      have he : joinRoomEffect S (js "__proto__") receiver = (S, some .typeError) := by
        simp [joinRoomEffect, hr, hm]
      rw [he]
      exact h
    | some m =>
      have he : joinRoomEffect S (js "__proto__") receiver =
          (⟨S.activeRooms, setOwn S.unreadMessages (resolve (js "__proto__") receiver)
            (putVal m (js "__proto__") (.num 0))⟩, none) := by
        simp [joinRoomEffect, hr, hm]
      have hown : getOwn m (js "__proto__") = none := by
        simpa [counter, hm] using h
      rw [he]
      simp [counter, getOwn_setOwn_self, putVal_proto m _ hown, hown]

/-- C14: for every state and every `joinRoom` event with room `r = resolve sender receiver`,
in the state the handler leaves in memory: if `r` existed, its room object, history
included, and every other user's counter in `r` are as before; if `r` did not exist, it is
created with no history and the handler completes; every other room's object and counters
are as before; whenever the handler completes, the counter of `sender` in `r` is `0`, except
for a sender called `__proto__`, for whom nothing is stored. The handler's result is this
state when no exception ended it. -/
theorem joinRoom_frame (S : State) (sender receiver : JsString) :
    (∀ room, getOwn S.activeRooms (resolve sender receiver) = some room →
      getOwn (joinRoomEffect S sender receiver).1.activeRooms (resolve sender receiver)
        = some room ∧
      historyOf (joinRoomEffect S sender receiver).1 (resolve sender receiver)
        = historyOf S (resolve sender receiver) ∧
      ∀ v, v ≠ sender →
        counter (joinRoomEffect S sender receiver).1 (resolve sender receiver) v
          = counter S (resolve sender receiver) v) ∧
    (getOwn S.activeRooms (resolve sender receiver) = none →
      getOwn (joinRoomEffect S sender receiver).1.activeRooms (resolve sender receiver)
        = some { history := none } ∧
      historyOf (joinRoomEffect S sender receiver).1 (resolve sender receiver) = [] ∧
      (joinRoomEffect S sender receiver).2 = none) ∧
    (∀ r, r ≠ resolve sender receiver →
      getOwn (joinRoomEffect S sender receiver).1.activeRooms r = getOwn S.activeRooms r ∧
      getOwn (joinRoomEffect S sender receiver).1.unreadMessages r
        = getOwn S.unreadMessages r) ∧
    ((joinRoomEffect S sender receiver).2 = none → sender ≠ js "__proto__" →
      counter (joinRoomEffect S sender receiver).1 (resolve sender receiver) sender
        = some (.num 0)) ∧
    (sender = js "__proto__" → counter S (resolve sender receiver) sender = none →
      counter (joinRoomEffect S sender receiver).1 (resolve sender receiver) sender = none) ∧
    (joinState S sender receiver =
      match joinRoomEffect S sender receiver with
      | (S', none) => .ok S'
      | (_, some e) => .error e) :=
  ⟨(joinRoomEffect_frame S sender receiver).1, (joinRoomEffect_frame S sender receiver).2.1,
   (joinRoomEffect_frame S sender receiver).2.2.1, (joinRoomEffect_frame S sender receiver).2.2.2,
   fun hs h => by subst hs; exact joinRoomEffect_proto S receiver h,
   joinState_eq_effect S sender receiver⟩

/-- C15: for every state and every `joinRoom` event, handling the event twice in succession
gives the same `activeRooms` and `unreadMessages` as handling it once (and fails exactly
when handling it once fails). -/
theorem joinTwice_eq_joinState (S : State) (sender receiver : JsString) :
    joinTwice S sender receiver = joinState S sender receiver := by
  cases hr : getOwn S.activeRooms (resolve sender receiver) with
  | none =>
    have h1 := joinRoom_new S sender receiver hr
    have h2 := joinRoom_existing
      { activeRooms := setOwn S.activeRooms (resolve sender receiver) { history := none },
        unreadMessages :=
          setOwn (setOwn S.unreadMessages (resolve sender receiver) [])
            (resolve sender receiver) (putVal [] sender (.num 0)) }
      sender receiver { history := none } (putVal [] sender (.num 0))
      (getOwn_setOwn_self _ _ _) (getOwn_setOwn_self _ _ _)
    simp only [joinTwice, joinState, h1, h2]
    rw [putVal_putVal_same, setOwn_setOwn_same]
  | some room =>
    cases hm : getOwn S.unreadMessages (resolve sender receiver) with
    | none =>
      have h1 : joinRoom S sender receiver = .error .typeError := by
        simp [joinRoom, hr, hm]
      simp only [joinTwice, joinState, h1]
    | some m =>
      have h1 := joinRoom_existing S sender receiver room m hr hm
      have h2 := joinRoom_existing
        { S with unreadMessages :=
            setOwn S.unreadMessages (resolve sender receiver) (putVal m sender (.num 0)) }
        sender receiver room (putVal m sender (.num 0)) hr (getOwn_setOwn_self _ _ _)
      simp only [joinTwice, joinState, h1, h2]
      rw [putVal_putVal_same m sender (.num 0), setOwn_setOwn_same]

/-- C16: for every state and every `leaveRoom` event on a socket joined to a room (the room
has its object and its counters), the handler completes, `activeRooms` is identical before
and after, so that the room and its history remain, and the counters of every other room
are unchanged. -/
theorem leaveRoom_frame (S : State) (roomId : JsString) (room : Room) (m : Obj Val)
    (hr : getOwn S.activeRooms roomId = some room)
    (hm : getOwn S.unreadMessages roomId = some m) :
    ∃ L, leaveRoom S (some roomId) = .ok L ∧
      L.state.activeRooms = S.activeRooms ∧
      getOwn L.state.activeRooms roomId = some room ∧
      historyOf L.state roomId = historyOf S roomId ∧
      ∀ r, r ≠ roomId → getOwn L.state.unreadMessages r = getOwn S.unreadMessages r := by
  by_cases he : roomId = []
  · refine ⟨{ state := S, saved := none }, ?_, rfl, hr, rfl, fun _ _ => rfl⟩
    simp [leaveRoom, he]
  · refine ⟨⟨⟨S.activeRooms, setOwn S.unreadMessages roomId
        (putVal m (propKey (room.keys.find? (fun user => user != js "history"))) (.num 0))⟩,
      some S⟩, ?_, rfl, hr, rfl, ?_⟩
    · simp [leaveRoom, he, hr, hm]
    · intro r hne
      simp [getOwn_setOwn_ne _ _ _ _ hne]

/-- Witness of C16: amy leaves at the end of the scenario; the room keeps its two messages. -/
theorem leaveRoom_frame_witness :
    ∃ L, leaveRoom scenarioState (some (js "amy-bob")) = .ok L ∧
      L.state.activeRooms = scenarioState.activeRooms ∧
      historyOf L.state (js "amy-bob")
        = [{ sender := js "amy", payload := js "hi" },
           { sender := js "bob", payload := js "yo" }] := by
  obtain ⟨L, hL, har, _, hh, _⟩ :=
    leaveRoom_frame scenarioState (js "amy-bob")
      { history := some [{ sender := js "amy", payload := js "hi" },
                         { sender := js "bob", payload := js "yo" }] }
      [(js "amy", .num 1), (js "bob", .num 1)] rfl rfl
  exact ⟨L, hL, har, hh.trans rfl⟩

theorem append_dash_inj (x y x' y' : JsString) (hx : dash ∉ x) (hy : dash ∉ y)
    (hx' : dash ∉ x') (hy' : dash ∉ y') (h : x ++ dash :: y = x' ++ dash :: y') :
    x = x' ∧ y = y' := by
  have hs := congrArg (split dash) h
  rw [split_append_sep dash x y hx, split_append_sep dash x' y' hx',
    split_of_not_mem dash y hy, split_of_not_mem dash y' hy'] at hs
  simp only [List.cons.injEq, and_true] at hs
  exact hs

/-- C17: for identifiers that contain no `-`, two pairs with the same room id are the same
unordered pair; without that condition this fails: "a-b" with "c" and "a" with "b-c" share
the room id "a-b-c". -/
theorem resolve_canonical :
    (∀ a b c d : JsString, dash ∉ a → dash ∉ b → dash ∉ c → dash ∉ d →
      resolve a b = resolve c d → (a = c ∧ b = d) ∨ (a = d ∧ b = c)) ∧
    (resolve (js "a-b") (js "c") = resolve (js "a") (js "b-c") ∧
      ¬ ((js "a-b" = js "a" ∧ js "c" = js "b-c") ∨ (js "a-b" = js "b-c" ∧ js "c" = js "a"))) := by
  refine ⟨?_, rfl, by decide⟩
  intro a b c d ha hb hc hd h
  rw [resolve_eq, resolve_eq] at h
  split at h <;> split at h
  · obtain ⟨h1, h2⟩ := append_dash_inj b a d c hb ha hd hc h
    exact Or.inl ⟨h2, h1⟩
  · obtain ⟨h1, h2⟩ := append_dash_inj b a c d hb ha hc hd h
    exact Or.inr ⟨h2, h1⟩
  · obtain ⟨h1, h2⟩ := append_dash_inj a b d c ha hb hd hc h
    exact Or.inr ⟨h1, h2⟩
  · obtain ⟨h1, h2⟩ := append_dash_inj a b c d ha hb hc hd h
    exact Or.inl ⟨h1, h2⟩

/-- C18, the code at the failing input: amy joins with peer bob and sends "hi" before bob
has joined, which leaves `NaN` as bob's counter; when amy then sends "again", the message is
appended to the history but `NaN + 1` is `NaN`: `unreadMessages` is exactly as before, and
no counter has changed. -/
theorem SEND_nan_counter_unchanged :
    ∃ w w', run World.empty
        [.joinRoom 0 (js "amy") (js "bob"), .SEND 0 { sender := js "amy", payload := js "hi" }]
        = .ok w ∧
      counter w.state (js "amy-bob") (js "bob") = some .nan ∧
      step w (.SEND 0 { sender := js "amy", payload := js "again" }) = .ok w' ∧
      historyOf w'.state (js "amy-bob")
        = [{ sender := js "amy", payload := js "hi" },
           { sender := js "amy", payload := js "again" }] ∧
      w'.state.unreadMessages = w.state.unreadMessages :=
  ⟨_, _, rfl, rfl, rfl, rfl, rfl⟩

end PickYouChat
